import Mathlib

/-!
# VarOpt union (`sampling/include/var_opt_union_impl.hpp`)

A shallow embedding of `var_opt_union` and of the part of `var_opt_sketch`
that the union reads and writes through its friend access.

* `double` values are rationals (exact arithmetic); the one place where a
  `double` may be "not a number" is the value of `get_tau()` on a sketch
  without reservoir, which is an `Option ℚ`.
* `uint32_t` and `size_t` values are natural numbers: they count stored items
  and allocated slots and stay far below their word size. The union's running
  total `n_` is a `uint64_t` that adds up the `n` of every input; its addition
  is taken modulo `2 ^ 64`.
* `assert` depends on the build: every function that asserts takes the flag
  `checked`. With `checked = true` a failing assertion aborts the call,
  `failure.assertion l` naming the source line; with `checked = false`
  (`NDEBUG`) the assertion is skipped.
* The `while` loop of `migrate_marked_items_by_decreasing_k` runs on fuel.
* A call of `decrease_k_by_1` on a sketch with `k < 2` violates the
  precondition of that operation and does not return: `failure.precondition`.
-/

namespace datasketches

/-- Reason for which a call does not return a value. -/
inductive failure where
  | assertion (line : Nat)
  | precondition
  | out_of_fuel
  deriving DecidableEq

/-- The fields of `var_opt_sketch` that the union touches. `data_` holds one
slot per allocated position, `none` standing for a slot that holds no
constructed item (the gap between H and R, or unused capacity); an absent
`marks_` array (`nullptr`) is the empty list. -/
structure var_opt_sketch (T : Type) where
  k_ : Nat
  h_ : Nat
  r_ : Nat
  n_ : Nat
  total_wt_r_ : ℚ
  curr_items_alloc_ : Nat
  data_ : List (Option T)
  weights_ : List ℚ
  marks_ : List Bool
  num_marks_in_h_ : Nat
  deriving DecidableEq

/-- The statement `assert(c)` of source line `line`, followed by the rest of
the function body. -/
def assert_then {α : Type} (checked : Bool) (c : Bool) (line : Nat)
    (rest : Except failure α) : Except failure α :=
  if checked && !c then .error (.assertion line) else rest

/-- The data members of `var_opt_union`. -/
structure var_opt_union (T : Type) where
  n_ : Nat
  outer_tau_numer_ : ℚ
  outer_tau_denom_ : Nat
  max_k_ : Nat
  gadget_ : var_opt_sketch T
  deriving DecidableEq

/-- The two operations of the gadget that carry the VarOpt admission and
eviction rule. Their code is not part of the union; the union is modelled
over an arbitrary pair of them. -/
structure gadget_ops (T : Type) where
  update : var_opt_sketch T → T → ℚ → Bool → var_opt_sketch T
  decrease_k_by_1 : var_opt_sketch T → var_opt_sketch T

variable {T : Type}

/-! ## Collaborator parts of `var_opt_sketch` -/

/-- Modelled from the spec: the constructor of `var_opt_sketch`
("created with a capacity and optional mark-mode flag"), which is not part of
these sources; it yields a sketch of capacity `k` without samples or marks. -/
def var_opt_sketch.empty (k : Nat) : var_opt_sketch T :=
  { k_ := k, h_ := 0, r_ := 0, n_ := 0, total_wt_r_ := 0, curr_items_alloc_ := 0,
    data_ := [], weights_ := [], marks_ := [], num_marks_in_h_ := 0 }

/-- Modelled from the spec: `var_opt_sketch::reset`, missing from these
sources ("clears the gadget to empty, preserving `max_k`"). -/
def var_opt_sketch.reset (s : var_opt_sketch T) : var_opt_sketch T :=
  var_opt_sketch.empty s.k_

/-- Modelled from the spec: `var_opt_sketch::get_tau`, missing from these
sources ("`total_weight_r / r` when `r > 0`, undefined/0 otherwise"); the
undefined value is `none`. -/
def var_opt_sketch.get_tau (s : var_opt_sketch T) : Option ℚ :=
  if s.r_ = 0 then none else some (s.total_wt_r_ / (s.r_ : ℚ))

/-- Modelled from the spec: `var_opt_sketch::get_num_samples`, missing from
these sources: the number of stored samples, `h + r`. -/
def var_opt_sketch.get_num_samples (s : var_opt_sketch T) : Nat :=
  s.h_ + s.r_

/-- Modelled from the spec: `var_opt_sketch::strip_marks`, missing from these
sources ("clears all mark bits and the marked-count counter; no other state
changes"). -/
def var_opt_sketch.strip_marks (s : var_opt_sketch T) : var_opt_sketch T :=
  { s with marks_ := [], num_marks_in_h_ := 0 }

/-- Modelled from the spec: the constructor
`var_opt_sketch(other, as_sketch, adjusted_n)`, missing from these sources
("a variant that optionally drops marks and accepts an externally supplied
`n`"). -/
def var_opt_sketch.copy (other : var_opt_sketch T) (as_sketch : Bool) (adjusted_n : Nat) :
    var_opt_sketch T :=
  if as_sketch then
    { other with n_ := adjusted_n, marks_ := [], num_marks_in_h_ := 0 }
  else
    { other with n_ := adjusted_n }

/-- Modelled from the spec: the H-region `const_iterator` of `var_opt_sketch`,
missing from these sources: the items of slots `0 .. h-1` in index order, each
with its stored weight. A slot without a constructed item yields nothing. -/
def var_opt_sketch.h_samples (s : var_opt_sketch T) : List (T × ℚ) :=
  (List.range s.h_).filterMap fun i =>
    (s.data_.getD i none).map fun x => (x, s.weights_.getD i 0)

/-- Modelled from the spec: the weight-correcting R-region `const_iterator`
of `var_opt_sketch`, missing from these sources: the items of slots
`h+1 .. h+r` in index order, each with the representative weight
`total_weight_r / r`. -/
def var_opt_sketch.r_samples (s : var_opt_sketch T) : List (T × ℚ) :=
  (List.range s.r_).filterMap fun j =>
    (s.data_.getD (s.h_ + 1 + j) none).map fun x => (x, s.total_wt_r_ / (s.r_ : ℚ))

/-- Comparison `w < t` of a weight with a `double` that may be undefined;
every comparison with an undefined value is false. -/
def dbl_lt (w : ℚ) (t : Option ℚ) : Bool :=
  match t with
  | none => false
  | some t => decide (w < t)

/-- Comparison `t > w` of a possibly undefined `double` with a number. -/
def dbl_gt (t : Option ℚ) (w : ℚ) : Bool :=
  match t with
  | none => false
  | some t => decide (t > w)

/-- Comparison `t == w` of a possibly undefined `double` with a number. -/
def dbl_eq (t : Option ℚ) (w : ℚ) : Bool :=
  match t with
  | none => false
  | some t => decide (t = w)

/-! ## The union -/

/-- Constructor `var_opt_union(max_k)`. -/
def var_opt_union.new (max_k : Nat) : var_opt_union T :=
  { n_ := 0, outer_tau_numer_ := 0, outer_tau_denom_ := 0, max_k_ := max_k,
    gadget_ := var_opt_sketch.empty max_k }

/-- Method `var_opt_union::reset`. -/
def var_opt_union.reset (u : var_opt_union T) : var_opt_union T :=
  { u with gadget_ := u.gadget_.reset }

/-- Method `var_opt_union::get_outer_tau`. -/
def var_opt_union.get_outer_tau (u : var_opt_union T) : ℚ :=
  if u.outer_tau_denom_ = 0 then 0 else u.outer_tau_numer_ / (u.outer_tau_denom_ : ℚ)

/-- The two feeding loops of `merge_into`: every H item with `mark = false`,
then every R item with `mark = true`. -/
def feed_gadget (ops : gadget_ops T) (g : var_opt_sketch T) (sketch : var_opt_sketch T) :
    var_opt_sketch T :=
  let g1 := sketch.h_samples.foldl (fun g p => ops.update g p.1 p.2 false) g
  sketch.r_samples.foldl (fun g p => ops.update g p.1 p.2 true) g1

/-- Method `var_opt_union::merge_into`. The statement `n_ += sketch.n_` adds
two `uint64_t` values and wraps at `2 ^ 64`. -/
def merge_into (ops : gadget_ops T) (u : var_opt_union T) (sketch : var_opt_sketch T) :
    var_opt_union T :=
  if sketch.n_ = 0 then u
  else
    let u1 : var_opt_union T :=
      { u with n_ := (u.n_ + sketch.n_) % 2 ^ 64, gadget_ := feed_gadget ops u.gadget_ sketch }
    if 0 < sketch.r_ then
      let sketch_tau := sketch.get_tau
      let outer_tau := u1.get_outer_tau
      if u1.outer_tau_denom_ = 0 then
        { u1 with outer_tau_numer_ := sketch.total_wt_r_, outer_tau_denom_ := sketch.r_ }
      else if dbl_gt sketch_tau outer_tau then
        { u1 with outer_tau_numer_ := sketch.total_wt_r_, outer_tau_denom_ := sketch.r_ }
      else if dbl_eq sketch_tau outer_tau then
        { u1 with outer_tau_numer_ := u1.outer_tau_numer_ + sketch.total_wt_r_,
                  outer_tau_denom_ := u1.outer_tau_denom_ + sketch.r_ }
      else u1
    else u1

/-- Method `var_opt_union::simple_gadget_coercer`. -/
def simple_gadget_coercer (checked : Bool) (u : var_opt_union T) :
    Except failure (var_opt_sketch T) :=
  assert_then checked (decide (u.gadget_.num_marks_in_h_ = 0)) 205 <|
  .ok (u.gadget_.copy true u.n_)

/-- Method `var_opt_union::there_exist_unmarked_h_items_lighter_than_target`. -/
def there_exist_unmarked_h_items_lighter_than_target (u : var_opt_union T)
    (threshold : Option ℚ) : Bool :=
  (List.range u.gadget_.h_).any fun i =>
    dbl_lt (u.gadget_.weights_.getD i 0) threshold && !(u.gadget_.marks_.getD i false)

/-- Local variables of `mark_moving_gadget_coercer`. -/
structure coercer_state (T : Type) where
  data : List (Option T)
  wts : List ℚ
  result_h : Nat
  result_r : Nat
  next_r_pos : Nat
  transferred_weight : ℚ
  deriving DecidableEq

/-- Body of the loop "insert R region items, ignoring weights". -/
def coercer_r_step (g : var_opt_sketch T) (st : coercer_state T) (idx : Nat) :
    coercer_state T :=
  { st with
    data := st.data.set st.next_r_pos (g.data_.getD idx none)
    wts := st.wts.set st.next_r_pos (g.weights_.getD idx 0)
    result_r := st.result_r + 1
    next_r_pos := st.next_r_pos - 1 }

/-- Body of the loop "insert H region items". -/
def coercer_h_step (g : var_opt_sketch T) (st : coercer_state T) (idx : Nat) :
    coercer_state T :=
  if g.marks_.getD idx false then
    { st with
      data := st.data.set st.next_r_pos (g.data_.getD idx none)
      wts := st.wts.set st.next_r_pos (-1)
      transferred_weight := st.transferred_weight + g.weights_.getD idx 0
      result_r := st.result_r + 1
      next_r_pos := st.next_r_pos - 1 }
  else
    { st with
      data := st.data.set st.result_h (g.data_.getD idx none)
      wts := st.wts.set st.result_h (g.weights_.getD idx 0)
      result_h := st.result_h + 1 }

/-- Both loops of `mark_moving_gadget_coercer`, run on freshly allocated
buffers of `result_k + 1` slots. -/
def coercer_loops (g : var_opt_sketch T) : coercer_state T :=
  let result_k := g.h_ + g.r_
  let st0 : coercer_state T :=
    { data := List.replicate (result_k + 1) none, wts := List.replicate (result_k + 1) 0,
      result_h := 0, result_r := 0, next_r_pos := result_k, transferred_weight := 0 }
  let st1 := (List.range' (g.h_ + 1) (g.get_num_samples - g.h_)).foldl (coercer_r_step g) st0
  (List.range g.h_).foldl (coercer_h_step g) st1

/-- Method `var_opt_union::mark_moving_gadget_coercer`. -/
def mark_moving_gadget_coercer (checked : Bool) (u : var_opt_union T)
    (sk : var_opt_sketch T) : Except failure (var_opt_sketch T) :=
  let result_k := u.gadget_.h_ + u.gadget_.r_
  let st := coercer_loops u.gadget_
  assert_then checked (decide (st.result_h + st.result_r = result_k)) 299 <|
  assert_then checked
    (decide (|st.transferred_weight - u.outer_tau_numer_| < 1 / 10000000000)) 300 <|
  let result_r_weight := u.gadget_.total_wt_r_ + st.transferred_weight
  let result_n := u.n_
  .ok { sk with
        data_ := st.data
        weights_ := st.wts.set st.result_h (-1)
        marks_ := []
        num_marks_in_h_ := 0
        curr_items_alloc_ := result_k + 1
        k_ := result_k
        n_ := result_n
        h_ := st.result_h
        r_ := st.result_r
        total_wt_r_ := result_r_weight }

/-- Conditions 1 to 3 of `detect_and_handle_subcase_of_pseudo_exact`. -/
def conditions_1_2_3 (u : var_opt_union T) : Bool :=
  let condition1 := decide (u.gadget_.r_ = 0)
  let condition2 := decide (0 < u.gadget_.num_marks_in_h_)
  let condition3 := decide (u.gadget_.num_marks_in_h_ = u.outer_tau_denom_)
  condition1 && condition2 && condition3

/-- Method `var_opt_union::detect_and_handle_subcase_of_pseudo_exact`; the
sketch passed by reference is returned next to the boolean. -/
def detect_and_handle_subcase_of_pseudo_exact (checked : Bool) (u : var_opt_union T)
    (sk : var_opt_sketch T) : Except failure (Bool × var_opt_sketch T) :=
  if !(conditions_1_2_3 u) then .ok (false, sk)
  else
    let anti_condition4 := there_exist_unmarked_h_items_lighter_than_target u u.gadget_.get_tau
    if anti_condition4 then .ok (false, sk)
    else
      match mark_moving_gadget_coercer checked u sk with
      | .ok sk1 => .ok (true, sk1)
      | .error e => .error e

/-- Modelled from the spec: the call `gcopy.decrease_k_by_1()`, followed by
the rest of the function body. The operation is missing from these sources;
it has the precondition `k >= 2`, and a call that violates a precondition
fails instead of returning. -/
def decrease_then {α : Type} (ops : gadget_ops T) (gcopy : var_opt_sketch T)
    (rest : var_opt_sketch T → Except failure α) : Except failure α :=
  if 2 ≤ gcopy.k_ then rest (ops.decrease_k_by_1 gcopy) else .error .precondition

/-- The `while (gcopy.num_marks_in_h_ > 0)` loop of
`migrate_marked_items_by_decreasing_k`; one unit of fuel per iteration. -/
def migrate_loop (ops : gadget_ops T) (checked : Bool) :
    Nat → var_opt_sketch T → Except failure (var_opt_sketch T)
  | 0, gcopy => if gcopy.num_marks_in_h_ = 0 then .ok gcopy else .error .out_of_fuel
  | fuel + 1, gcopy =>
    if gcopy.num_marks_in_h_ = 0 then .ok gcopy
    else
      assert_then checked (decide (2 ≤ gcopy.k_)) 356 <|
      decrease_then ops gcopy fun gcopy1 =>
      migrate_loop ops checked fuel gcopy1

/-- Method `var_opt_union::migrate_marked_items_by_decreasing_k`. -/
def migrate_marked_items_by_decreasing_k (ops : gadget_ops T) (checked : Bool) (fuel : Nat)
    (gcopy : var_opt_sketch T) : Except failure (var_opt_sketch T) :=
  let r_count := gcopy.r_
  let h_count := gcopy.h_
  let k := gcopy.k_
  assert_then checked (decide (0 < gcopy.num_marks_in_h_)) 335 <|
  assert_then checked (decide (r_count = 0 ∨ k = h_count + r_count)) 337 <|
  let gcopy1 := if r_count = 0 ∧ h_count < k then { gcopy with k_ := h_count } else gcopy
  assert_then checked (decide (2 ≤ gcopy1.k_)) 347 <|
  decrease_then ops gcopy1 fun gcopy2 =>
  assert_then checked (decide (0 < gcopy2.r_)) 351 <|
  assert_then checked (dbl_gt gcopy2.get_tau 0) 352 <|
  match migrate_loop ops checked fuel gcopy2 with
  | .ok gcopy3 => .ok gcopy3.strip_marks
  | .error e => .error e

/-- Method `var_opt_union::get_result`. -/
def get_result (ops : gadget_ops T) (checked : Bool) (fuel : Nat) (u : var_opt_union T) :
    Except failure (var_opt_sketch T) :=
  if u.gadget_.num_marks_in_h_ = 0 then simple_gadget_coercer checked u
  else
    let gcopy := u.gadget_.copy false u.n_
    match detect_and_handle_subcase_of_pseudo_exact checked u gcopy with
    | .error e => .error e
    | .ok (is_pseudo_exact, gcopy1) =>
      if !is_pseudo_exact then migrate_marked_items_by_decreasing_k ops checked fuel gcopy1
      else .ok gcopy1

/-- A finite sequence of `merge_into` calls, in list order. -/
def merge_all (ops : gadget_ops T) (u : var_opt_union T) (sketches : List (var_opt_sketch T)) :
    var_opt_union T :=
  sketches.foldl (merge_into ops) u

/-! ## A deterministic instance of the collaborator -/

/-- Array store `a[i] = v` on a buffer that is grown with filler `d` when the
index lies beyond its end. -/
def write_slot {α : Type} (l : List α) (i : Nat) (d v : α) : List α :=
  (l ++ List.replicate (i + 1 - l.length) d).set i v

/-- Modelled from the spec: `var_opt_sketch::update`, missing from these
sources ("admits one weighted item under the sketch's standard VarOpt
admission/eviction rule"). While the sketch is exact and holds fewer than `k`
items the item is appended to H with its weight and mark. Otherwise the item
is offered to the reservoir: this instance fixes the random choice so that the
offered item is the one evicted, its weight joining `total_weight_r`. -/
def warmup_update (g : var_opt_sketch T) (x : T) (w : ℚ) (mark : Bool) : var_opt_sketch T :=
  if g.r_ = 0 ∧ g.h_ < g.k_ then
    { g with
      data_ := write_slot g.data_ g.h_ none (some x)
      weights_ := write_slot g.weights_ g.h_ 0 w
      marks_ := write_slot g.marks_ g.h_ false mark
      curr_items_alloc_ := max g.curr_items_alloc_ (g.h_ + 1)
      h_ := g.h_ + 1
      n_ := g.n_ + 1
      num_marks_in_h_ := g.num_marks_in_h_ + (if mark then 1 else 0) }
  else
    { g with n_ := g.n_ + 1, total_wt_r_ := g.total_wt_r_ + w }

/-- Modelled from the spec: a step of `var_opt_sketch::decrease_k_by_1`,
missing from these sources ("exactly one sample moves from H to R"). The last
H item leaves H: it moves into the gap slot, the gap moves one slot down, and
the weight of the item joins `total_weight_r`. A sketch without H items is
left as it is. -/
def absorb_last_h (g : var_opt_sketch T) : var_opt_sketch T :=
  if 0 < g.h_ then
    { g with
      data_ := (write_slot g.data_ g.h_ none (g.data_.getD (g.h_ - 1) none)).set (g.h_ - 1) none
      weights_ := (write_slot g.weights_ g.h_ 0 (-1)).set (g.h_ - 1) (-1)
      total_wt_r_ := g.total_wt_r_ + g.weights_.getD (g.h_ - 1) 0
      h_ := g.h_ - 1
      r_ := g.r_ + 1
      num_marks_in_h_ := g.num_marks_in_h_ - (if g.marks_.getD (g.h_ - 1) false then 1 else 0) }
  else g

/-- Modelled from the spec: a step of `var_opt_sketch::decrease_k_by_1`,
missing from these sources ("an R item is evicted per the standard rule").
Reservoir item number `j % r` is evicted: the item of the last reservoir slot
takes its slot and the last slot is emptied; `total_weight_r` is kept. A
sketch without reservoir is left as it is. -/
def evict_r_slot (j : Nat) (g : var_opt_sketch T) : var_opt_sketch T :=
  if 0 < g.r_ then
    { g with
      data_ := (g.data_.set (g.h_ + 1 + j % g.r_) (g.data_.getD (g.h_ + g.r_) none)).set
        (g.h_ + g.r_) none
      r_ := g.r_ - 1 }
  else g

/-- Modelled from the spec: `var_opt_sketch::decrease_k_by_1`, missing from
these sources ("k reduced by exactly one, tau strictly increases (or R
transitions from empty to non-empty), exactly one sample moves from H to R (or
an R item is evicted per the standard rule)", with `h + r <= k` kept). The
outcome of the random draw is the argument `j`. An exact sketch below capacity
only loses capacity. Otherwise the last H item joins the reservoir, a second
one with it when the sketch was exact, so that the reservoir is not empty, and
then the reservoir item chosen by `j` is evicted: a full sketch is left full
at the lower capacity. -/
def decrease_k_by_1_draw (j : Nat) (g : var_opt_sketch T) : var_opt_sketch T :=
  if g.r_ = 0 ∧ g.h_ < g.k_ then { g with k_ := g.k_ - 1 }
  else
    let g1 := absorb_last_h g
    let g2 := if g.r_ = 0 then absorb_last_h g1 else g1
    { evict_r_slot j g2 with k_ := g.k_ - 1 }

/-- Modelled from the spec: `var_opt_sketch::decrease_k_by_1` (missing from
these sources) with the random draw fixed to `0`. -/
def last_h_decrease_k_by_1 (g : var_opt_sketch T) : var_opt_sketch T :=
  decrease_k_by_1_draw 0 g

/-- The deterministic instance of the gadget operations. -/
def reference_ops : gadget_ops T :=
  { update := warmup_update, decrease_k_by_1 := last_h_decrease_k_by_1 }

/-- Modelled from the spec: the gadget operations with `decrease_k_by_1`
(missing from these sources) drawing at random; `draw g` is the outcome of the
draw of the call on the sketch `g`. -/
def drawing_ops (draw : var_opt_sketch T → Nat) : gadget_ops T :=
  { update := warmup_update,
    decrease_k_by_1 := fun g => decrease_k_by_1_draw (draw g) g }

/-! ## Notions used in the statements -/

/-- The value of `tau` of an input sketch in estimation mode. -/
def input_tau (s : var_opt_sketch T) : ℚ := s.total_wt_r_ / (s.r_ : ℚ)

/-- The pair of the union tracks the largest `tau` of the estimation-mode
sketches in `seen`; the denominator is zero as long as there is none. -/
def tau_pair_tracks (u : var_opt_union T) (seen : List (var_opt_sketch T)) : Prop :=
  (u.outer_tau_denom_ = 0 ∧ ∀ s ∈ seen, s.r_ = 0) ∨
  (0 < u.outer_tau_denom_ ∧
    (∃ s ∈ seen, 0 < s.r_ ∧ u.outer_tau_numer_ / (u.outer_tau_denom_ : ℚ) = input_tau s) ∧
    ∀ s ∈ seen, 0 < s.r_ → input_tau s ≤ u.outer_tau_numer_ / (u.outer_tau_denom_ : ℚ))

/-- The assumption on the gadget's `update`: while the gadget is exact and
holds fewer than `k` items, the item is appended to H with its exact weight,
the mark being counted; capacity and reservoir are left alone. -/
def appends_below_capacity (ops : gadget_ops T) : Prop :=
  ∀ (g : var_opt_sketch T) (x : T) (w : ℚ) (mark : Bool), g.r_ = 0 → g.h_ < g.k_ →
    (ops.update g x w mark).r_ = 0 ∧
    (ops.update g x w mark).k_ = g.k_ ∧
    (ops.update g x w mark).h_ = g.h_ + 1 ∧
    (ops.update g x w mark).h_samples = g.h_samples ++ [(x, w)] ∧
    (ops.update g x w mark).num_marks_in_h_ = g.num_marks_in_h_ + (if mark then 1 else 0)

/-- State of the union after exact inputs that fit into the gadget. -/
def holds_exactly (u : var_opt_union T) (max_k : Nat) (seen : List (var_opt_sketch T)) : Prop :=
  u.gadget_.r_ = 0 ∧ u.gadget_.k_ = max_k ∧ u.gadget_.num_marks_in_h_ = 0 ∧
  u.gadget_.h_ = (seen.map fun s => s.h_).sum ∧
  u.gadget_.h_samples = (seen.map fun s => s.h_samples).flatten

/-- The number of H slots of a sketch whose mark is set. -/
def marked_h_count (g : var_opt_sketch T) : Nat :=
  ((List.range g.h_).filter fun i => g.marks_.getD i false).length

/-- The sum of the weights of the marked H items of a sketch. -/
def marked_h_weight (g : var_opt_sketch T) : ℚ :=
  (((List.range g.h_).filter fun i => g.marks_.getD i false).map fun i =>
    g.weights_.getD i 0).sum

/-- Condition 4 of the pseudo-exact test: no unmarked H item of the gadget
has a weight strictly below the gadget's `tau`. -/
def condition_4 (u : var_opt_union T) : Prop :=
  ∀ i, i < u.gadget_.h_ → u.gadget_.marks_.getD i false = false →
    ∀ t, u.gadget_.get_tau = some t → ¬ (u.gadget_.weights_.getD i 0 < t)

/-- The four conditions of the pseudo-exact test. -/
def four_conditions (u : var_opt_union T) : Prop :=
  u.gadget_.r_ = 0 ∧ 0 < u.gadget_.num_marks_in_h_ ∧
  u.gadget_.num_marks_in_h_ = u.outer_tau_denom_ ∧ condition_4 u

/-- A sketch as the fallback hands it to `decrease_k_by_1`: it is full
(`k = h + r`), its mark counter is the number of its marked H slots, every H
weight is positive and `total_weight_r` is not negative. -/
def full_sketch (s : var_opt_sketch T) : Prop :=
  s.k_ = s.h_ + s.r_ ∧ s.num_marks_in_h_ = marked_h_count s ∧ 0 ≤ s.total_wt_r_ ∧
  ∀ i, i < s.h_ → 0 < s.weights_.getD i 0

/-- The contract of `decrease_k_by_1` under which the fallback returns: on a
full sketch with `k >= 2` and at least one H item, a call lowers `k` by one,
moves at least one item out of H and leaves a full sketch whose reservoir is
not empty and has a positive weight. -/
def decreases_full_sketch (ops : gadget_ops T) : Prop :=
  ∀ s : var_opt_sketch T, full_sketch s → 2 ≤ s.k_ → 0 < s.h_ →
    full_sketch (ops.decrease_k_by_1 s) ∧
    (ops.decrease_k_by_1 s).k_ + 1 = s.k_ ∧
    (ops.decrease_k_by_1 s).h_ < s.h_ ∧
    0 < (ops.decrease_k_by_1 s).r_ ∧
    0 < (ops.decrease_k_by_1 s).total_wt_r_

/-! ## Concrete sketches -/

/-- Exact sketch A of the scenario: items `a : 10.0` and `b : 1.0`. -/
def exact_ab : var_opt_sketch String :=
  { k_ := 10, h_ := 2, r_ := 0, n_ := 2, total_wt_r_ := 0, curr_items_alloc_ := 2,
    data_ := [some "a", some "b"], weights_ := [10, 1], marks_ := [], num_marks_in_h_ := 0 }

/-- Exact sketch B of the scenario: items `c : 7.0` and `d : 2.0`. -/
def exact_cd : var_opt_sketch String :=
  { k_ := 10, h_ := 2, r_ := 0, n_ := 2, total_wt_r_ := 0, curr_items_alloc_ := 2,
    data_ := [some "c", some "d"], weights_ := [7, 2], marks_ := [], num_marks_in_h_ := 0 }

/-- Sketch of capacity 1 in estimation mode: three items offered, `p` kept,
`tau = 2`. -/
def est_p : var_opt_sketch String :=
  { k_ := 1, h_ := 0, r_ := 1, n_ := 3, total_wt_r_ := 2, curr_items_alloc_ := 2,
    data_ := [none, some "p"], weights_ := [-1, -1], marks_ := [], num_marks_in_h_ := 0 }

/-- Sketch of capacity 1 in estimation mode: two items offered, `q` kept,
`tau = 1`. -/
def est_q : var_opt_sketch String :=
  { k_ := 1, h_ := 0, r_ := 1, n_ := 2, total_wt_r_ := 1, curr_items_alloc_ := 2,
    data_ := [none, some "q"], weights_ := [-1, -1], marks_ := [], num_marks_in_h_ := 0 }

/-- Sketch of capacity 2 in estimation mode: five items offered, `u` and `v`
kept, `tau = 2`. -/
def est_uv : var_opt_sketch String :=
  { k_ := 2, h_ := 0, r_ := 2, n_ := 5, total_wt_r_ := 4, curr_items_alloc_ := 3,
    data_ := [none, some "u", some "v"], weights_ := [-1, -1, -1], marks_ := [],
    num_marks_in_h_ := 0 }

/-- Sketch of capacity 2 in estimation mode: five items offered, `x` and `y`
kept, `tau = 1`. -/
def est_xy : var_opt_sketch String :=
  { k_ := 2, h_ := 0, r_ := 2, n_ := 5, total_wt_r_ := 2, curr_items_alloc_ := 3,
    data_ := [none, some "x", some "y"], weights_ := [-1, -1, -1], marks_ := [],
    num_marks_in_h_ := 0 }

/-- The union of capacity 10 after merging `est_p`, `est_q`. -/
def union_pq : var_opt_union String :=
  { n_ := 5, outer_tau_numer_ := 2, outer_tau_denom_ := 1, max_k_ := 10,
    gadget_ :=
      { k_ := 10, h_ := 2, r_ := 0, n_ := 2, total_wt_r_ := 0, curr_items_alloc_ := 2,
        data_ := [some "p", some "q"], weights_ := [2, 1],
        marks_ := [true, true], num_marks_in_h_ := 2 } }

/-- The sketch materialized from `union_pq` by the k-decrease fallback, the
draw of `decrease_k_by_1` being `0`. -/
def result_pq : var_opt_sketch String :=
  { k_ := 1, h_ := 0, r_ := 1, n_ := 5, total_wt_r_ := 3, curr_items_alloc_ := 2,
    data_ := [none, some "q", none], weights_ := [-1, -1, -1],
    marks_ := [], num_marks_in_h_ := 0 }

/-- The union of capacity 10 after merging `est_p`, `est_q`, `exact_ab`. -/
def union_pqab : var_opt_union String :=
  { n_ := 7, outer_tau_numer_ := 2, outer_tau_denom_ := 1, max_k_ := 10,
    gadget_ :=
      { k_ := 10, h_ := 4, r_ := 0, n_ := 4, total_wt_r_ := 0, curr_items_alloc_ := 4,
        data_ := [some "p", some "q", some "a", some "b"], weights_ := [2, 1, 10, 1],
        marks_ := [true, true, false, false], num_marks_in_h_ := 2 } }

/-- Sketch of capacity 1 in estimation mode that was offered `2 ^ 63` items:
`p` kept, `tau = 2`. -/
def est_big : var_opt_sketch String :=
  { k_ := 1, h_ := 0, r_ := 1, n_ := 9223372036854775808, total_wt_r_ := 2,
    curr_items_alloc_ := 2, data_ := [none, some "p"], weights_ := [-1, -1], marks_ := [],
    num_marks_in_h_ := 0 }

/-- The sketch materialized from the union of capacity 10 that merged
`est_big` twice. -/
def result_big : var_opt_sketch String :=
  { k_ := 2, h_ := 0, r_ := 2, n_ := 0, total_wt_r_ := 4, curr_items_alloc_ := 3,
    data_ := [none, some "p", some "p"], weights_ := [-1, -1, -1],
    marks_ := [], num_marks_in_h_ := 0 }

/-- The union of capacity 10 after merging `exact_ab`, `est_p`. -/
def union_abp : var_opt_union String :=
  { n_ := 5, outer_tau_numer_ := 2, outer_tau_denom_ := 1, max_k_ := 10,
    gadget_ :=
      { k_ := 10, h_ := 3, r_ := 0, n_ := 3, total_wt_r_ := 0, curr_items_alloc_ := 3,
        data_ := [some "a", some "b", some "p"], weights_ := [10, 1, 2],
        marks_ := [false, false, true], num_marks_in_h_ := 1 } }

/-- The sketch materialized from `union_abp` by the pseudo-exact coercion. -/
def result_abp : var_opt_sketch String :=
  { k_ := 3, h_ := 2, r_ := 1, n_ := 5, total_wt_r_ := 2, curr_items_alloc_ := 4,
    data_ := [some "a", some "b", none, some "p"], weights_ := [10, 1, -1, -1],
    marks_ := [], num_marks_in_h_ := 0 }

/-- The union of capacity 10 after `merge_into(est_uv)`, `reset()`,
`merge_into(est_xy)`. -/
def union_uv_reset_xy : var_opt_union String :=
  { n_ := 10, outer_tau_numer_ := 4, outer_tau_denom_ := 2, max_k_ := 10,
    gadget_ :=
      { k_ := 10, h_ := 2, r_ := 0, n_ := 2, total_wt_r_ := 0, curr_items_alloc_ := 2,
        data_ := [some "x", some "y"], weights_ := [1, 1],
        marks_ := [true, true], num_marks_in_h_ := 2 } }

/-- The union of capacity 10 after `merge_into(est_uv)`, `reset()`,
`merge_into(est_q)`. -/
def union_uv_reset_q : var_opt_union String :=
  { n_ := 7, outer_tau_numer_ := 4, outer_tau_denom_ := 2, max_k_ := 10,
    gadget_ :=
      { k_ := 10, h_ := 1, r_ := 0, n_ := 1, total_wt_r_ := 0, curr_items_alloc_ := 1,
        data_ := [some "q"], weights_ := [1],
        marks_ := [true], num_marks_in_h_ := 1 } }

/-- The union of capacity 10 after merging `exact_ab`, `exact_cd`. -/
def union_abcd : var_opt_union String :=
  { n_ := 4, outer_tau_numer_ := 0, outer_tau_denom_ := 0, max_k_ := 10,
    gadget_ :=
      { k_ := 10, h_ := 4, r_ := 0, n_ := 4, total_wt_r_ := 0, curr_items_alloc_ := 4,
        data_ := [some "a", some "b", some "c", some "d"], weights_ := [10, 1, 7, 2],
        marks_ := [false, false, false, false], num_marks_in_h_ := 0 } }

/-! ## Copy construction and assignment of the union -/

/-- The value stored when a `double` is written into the unsigned
denominator of the pair. -/
def to_count (q : ℚ) : Nat := q.floor.toNat

/-- Copy constructor `var_opt_union(const var_opt_union& other)`. -/
def var_opt_union.copy (other : var_opt_union T) : var_opt_union T :=
  { n_ := other.n_,
    outer_tau_numer_ := other.outer_tau_numer_,
    outer_tau_denom_ := other.outer_tau_denom_,
    max_k_ := other.max_k_,
    gadget_ := other.gadget_ }

/-- Copy assignment `var_opt_union::operator=(const var_opt_union& other)`:
five `std::swap` calls between `*this` and a local copy of `other`; the value
is `*this` afterwards, the local copy being destroyed. -/
def var_opt_union.copy_assign (this other : var_opt_union T) : var_opt_union T :=
  let union_copy := other.copy
  -- std::swap(n_, union_copy.n_)
  let this1 := { this with n_ := union_copy.n_ }
  let copy1 := { union_copy with n_ := this.n_ }
  -- std::swap(outer_tau_numer_, union_copy.outer_tau_numer_)
  let this2 := { this1 with outer_tau_numer_ := copy1.outer_tau_numer_ }
  let copy2 := { copy1 with outer_tau_numer_ := this1.outer_tau_numer_ }
  -- std::swap(outer_tau_numer_, union_copy.outer_tau_denom_)
  let this3 := { this2 with outer_tau_numer_ := (copy2.outer_tau_denom_ : ℚ) }
  let copy3 := { copy2 with outer_tau_denom_ := to_count this2.outer_tau_numer_ }
  -- std::swap(max_k_, union_copy.max_k_)
  let this4 := { this3 with max_k_ := copy3.max_k_ }
  let copy4 := { copy3 with max_k_ := this3.max_k_ }
  -- std::swap(gadget_, union_copy.gadget_)
  let this5 := { this4 with gadget_ := copy4.gadget_ }
  this5

/-- The union of capacity 10 after merging `est_uv`. -/
def union_uv : var_opt_union String :=
  { n_ := 5, outer_tau_numer_ := 4, outer_tau_denom_ := 2, max_k_ := 10,
    gadget_ :=
      { k_ := 10, h_ := 2, r_ := 0, n_ := 2, total_wt_r_ := 0, curr_items_alloc_ := 2,
        data_ := [some "u", some "v"], weights_ := [2, 2],
        marks_ := [true, true], num_marks_in_h_ := 2 } }

/-! ## The calls of `update` made by `merge_into` -/

/-- The sequence of `update` calls that the feeding protocol prescribes for a
sketch whose H slots hold `items_h` and whose R slots hold `items_r`: every H
item with its own weight and `mark = false`, then every R item with the weight
`total_weight_r / r` and `mark = true`. A call is (item, weight, mark). -/
def feed_calls (s : var_opt_sketch T) (items_h items_r : List T) : List (T × ℚ × Bool) :=
  (items_h.enum.map fun p => (p.2, s.weights_.getD p.1 0, false)) ++
  items_r.map fun y => (y, s.total_wt_r_ / (s.r_ : ℚ), true)

/-- Sketch of capacity 3 in estimation mode: six items offered, `a : 10.0` in
H, `u` and `v` in R, `tau = 2`. -/
def mixed_auv : var_opt_sketch String :=
  { k_ := 3, h_ := 1, r_ := 2, n_ := 6, total_wt_r_ := 4, curr_items_alloc_ := 4,
    data_ := [some "a", none, some "u", some "v"], weights_ := [10, -1, -1, -1], marks_ := [],
    num_marks_in_h_ := 0 }

/-! ## The tier of the largest tau -/

/-- The estimation-mode inputs of `sketches` whose `tau` equals `t`. -/
def tau_tier (sketches : List (var_opt_sketch T)) (t : ℚ) : List (var_opt_sketch T) :=
  sketches.filter fun s => decide (0 < s.r_ ∧ input_tau s = t)

/-- The estimation-mode inputs of `sketches` whose `tau` is the maximum of
`tau` over all estimation-mode inputs of `sketches`. -/
def top_tau_inputs (sketches : List (var_opt_sketch T)) : List (var_opt_sketch T) :=
  sketches.filter fun s =>
    decide (0 < s.r_ ∧ ∀ x ∈ sketches, 0 < x.r_ → input_tau x ≤ input_tau s)

/-- The pair of the union holds the sums of `total_weight_r` and of `r` over
the tier of its own ratio among the sketches in `seen`. -/
def pair_sums_tier (u : var_opt_union T) (seen : List (var_opt_sketch T)) : Prop :=
  u.outer_tau_denom_
    = ((tau_tier seen (u.outer_tau_numer_ / (u.outer_tau_denom_ : ℚ))).map fun s => s.r_).sum ∧
  u.outer_tau_numer_
    = ((tau_tier seen (u.outer_tau_numer_ / (u.outer_tau_denom_ : ℚ))).map
        fun s => s.total_wt_r_).sum

/-! ## The H slots of a gadget by mark -/

/-- The indices of the unmarked H slots of a sketch, in index order. -/
def unmarked_h_slots (g : var_opt_sketch T) : List Nat :=
  (List.range g.h_).filter fun i => !(g.marks_.getD i false)

/-- The indices of the marked H slots of a sketch, in index order. -/
def marked_h_slots (g : var_opt_sketch T) : List Nat :=
  (List.range g.h_).filter fun i => g.marks_.getD i false

/-! ## Two draws of the collaborator -/

/-- The assumption on the gadget's `update` in terms of the slots that the
coercion reads: while the gadget is exact and holds fewer than `k` items, the
item is stored in H slot `h` with its exact weight and its mark, the slots
before it are kept, and the mark is counted. -/
def stores_below_capacity (ops : gadget_ops T) : Prop :=
  ∀ (g : var_opt_sketch T) (x : T) (w : ℚ) (mark : Bool), g.r_ = 0 → g.h_ < g.k_ →
    (ops.update g x w mark).r_ = 0 ∧
    (ops.update g x w mark).k_ = g.k_ ∧
    (ops.update g x w mark).h_ = g.h_ + 1 ∧
    (ops.update g x w mark).num_marks_in_h_ = g.num_marks_in_h_ + (if mark then 1 else 0) ∧
    (∀ i, i < g.h_ →
      (ops.update g x w mark).weights_.getD i 0 = g.weights_.getD i 0 ∧
      (ops.update g x w mark).marks_.getD i false = g.marks_.getD i false) ∧
    (ops.update g x w mark).weights_.getD g.h_ 0 = w ∧
    (ops.update g x w mark).marks_.getD g.h_ false = mark

/-- The assumption on the gadget's `update` beyond the warm-up: an update of a
sketch in estimation mode, or of an exact sketch that is full, leaves the
sketch in estimation mode. -/
def leaves_warmup_for_good (ops : gadget_ops T) : Prop :=
  ∀ (g : var_opt_sketch T) (x : T) (w : ℚ) (mark : Bool),
    (0 < g.r_ ∨ (0 < g.k_ ∧ g.k_ ≤ g.h_)) → 0 < (ops.update g x w mark).r_

/-- The estimation-mode inputs among `sketches`. -/
def est_inputs (sketches : List (var_opt_sketch T)) : List (var_opt_sketch T) :=
  sketches.filter fun s => decide (0 < s.r_)

/-- State of the gadget after merging `seen` into a fresh union: it has left
the warm-up, or it is exact, its mark counter is the number of its marked H
slots, that number is the number of reservoir items fed and the marked weight
is the reservoir weight fed. -/
def gadget_warm (u : var_opt_union T) (max_k : Nat) (seen : List (var_opt_sketch T)) : Prop :=
  0 < u.gadget_.r_ ∨
  (u.gadget_.r_ = 0 ∧ u.gadget_.k_ = max_k ∧
    u.gadget_.num_marks_in_h_ = marked_h_count u.gadget_ ∧
    marked_h_count u.gadget_ = ((est_inputs seen).map fun s => s.r_).sum ∧
    marked_h_weight u.gadget_ = ((est_inputs seen).map fun s => s.total_wt_r_).sum)

/-- Modelled from the spec: `var_opt_sketch::update` (missing from these
sources) with the transition out of the warm-up. Below capacity it is
`warmup_update`; on a full exact sketch the last H item and the offered item
form the reservoir, the offered item being the one evicted; in estimation
mode it is `warmup_update` again. -/
def overflowing_update (g : var_opt_sketch T) (x : T) (w : ℚ) (mark : Bool) :
    var_opt_sketch T :=
  if g.r_ = 0 ∧ ¬ g.h_ < g.k_ then
    { absorb_last_h g with
      n_ := g.n_ + 1
      total_wt_r_ := (absorb_last_h g).total_wt_r_ + w }
  else warmup_update g x w mark

/-- The instance of the gadget operations with the transition out of the
warm-up. -/
def overflowing_ops : gadget_ops T :=
  { update := overflowing_update, decrease_k_by_1 := last_h_decrease_k_by_1 }

/-! ## Assertions -/

theorem assert_then_ok {α : Type} (checked c : Bool) (line : Nat) (rest : Except failure α)
    (x : α) (h : assert_then checked c line rest = .ok x) : rest = .ok x := by
  unfold assert_then at h
  split_ifs at h
  exact h

theorem assert_then_unchecked {α : Type} (c : Bool) (line : Nat) (rest : Except failure α) :
    assert_then false c line rest = rest := by
  simp [assert_then]

theorem assert_then_true {α : Type} (checked : Bool) (line : Nat) (rest : Except failure α) :
    assert_then checked true line rest = rest := by
  simp [assert_then]

theorem assert_then_pass {α : Type} (checked c : Bool) (line : Nat) (rest : Except failure α)
    (h : c = true) : assert_then checked c line rest = rest := by
  subst h
  simp [assert_then]

theorem assert_then_cases {α : Type} (checked c : Bool) (line : Nat)
    (rest : Except failure α) :
    assert_then checked c line rest = rest ∨
      (checked = true ∧ assert_then checked c line rest = .error (.assertion line)) := by
  unfold assert_then
  cases checked <;> cases c <;> simp

/-! ## Running total `n_` -/

theorem merge_into_n (ops : gadget_ops T) (u : var_opt_union T) (s : var_opt_sketch T)
    (hn : 0 < s.n_) : (merge_into ops u s).n_ = (u.n_ + s.n_) % 2 ^ 64 := by
  have h0 : ¬ s.n_ = 0 := by omega
  unfold merge_into
  simp only [h0, if_false]
  split_ifs <;> rfl

theorem merge_into_n_mod (ops : gadget_ops T) (u : var_opt_union T) (s : var_opt_sketch T)
    (hu : u.n_ < 2 ^ 64) : (merge_into ops u s).n_ = (u.n_ + s.n_) % 2 ^ 64 := by
  by_cases h0 : s.n_ = 0
  · have : merge_into ops u s = u := by simp [merge_into, h0]
    rw [this, h0, Nat.add_zero, Nat.mod_eq_of_lt hu]
  · exact merge_into_n ops u s (by omega)

theorem merge_all_n (ops : gadget_ops T) (sketches : List (var_opt_sketch T))
    (u : var_opt_union T) (hu : u.n_ < 2 ^ 64) :
    (merge_all ops u sketches).n_ = (u.n_ + (sketches.map fun s => s.n_).sum) % 2 ^ 64 := by
  induction sketches generalizing u with
  | nil =>
    show u.n_ = (u.n_ + 0) % 2 ^ 64
    rw [Nat.add_zero, Nat.mod_eq_of_lt hu]
  | cons s rest ih =>
    have hlt : (merge_into ops u s).n_ < 2 ^ 64 := by
      rw [merge_into_n_mod ops u s hu]
      exact Nat.mod_lt _ (by norm_num)
    have := ih (merge_into ops u s) hlt
    simp only [merge_all, List.foldl_cons, List.map_cons, List.sum_cons] at this ⊢
    rw [this, merge_into_n_mod ops u s hu, Nat.mod_add_mod, Nat.add_assoc]

theorem decrease_then_ok {α : Type} (ops : gadget_ops T) (g : var_opt_sketch T)
    (rest : var_opt_sketch T → Except failure α) (x : α)
    (h : decrease_then ops g rest = .ok x) :
    2 ≤ g.k_ ∧ rest (ops.decrease_k_by_1 g) = .ok x := by
  unfold decrease_then at h
  split_ifs at h with hk
  exact ⟨hk, h⟩

theorem decrease_then_pos {α : Type} (ops : gadget_ops T) (g : var_opt_sketch T)
    (rest : var_opt_sketch T → Except failure α) (hk : 2 ≤ g.k_) :
    decrease_then ops g rest = rest (ops.decrease_k_by_1 g) := by
  unfold decrease_then
  rw [if_pos hk]

theorem migrate_loop_n (ops : gadget_ops T) (checked : Bool)
    (hdec : ∀ s, (ops.decrease_k_by_1 s).n_ = s.n_) (fuel : Nat) :
    ∀ (g sk : var_opt_sketch T), migrate_loop ops checked fuel g = .ok sk → sk.n_ = g.n_ := by
  induction fuel with
  | zero =>
    intro g sk h
    unfold migrate_loop at h
    split_ifs at h
    cases h
    rfl
  | succ fuel ih =>
    intro g sk h
    unfold migrate_loop at h
    split_ifs at h
    · cases h
      rfl
    · rw [ih _ _ (decrease_then_ok _ _ _ _ (assert_then_ok _ _ _ _ _ h)).2, hdec]

theorem migrate_n (ops : gadget_ops T) (checked : Bool)
    (hdec : ∀ s, (ops.decrease_k_by_1 s).n_ = s.n_) (fuel : Nat)
    (g sk : var_opt_sketch T)
    (h : migrate_marked_items_by_decreasing_k ops checked fuel g = .ok sk) : sk.n_ = g.n_ := by
  unfold migrate_marked_items_by_decreasing_k at h
  simp only at h
  have h := (decrease_then_ok _ _ _ _ (assert_then_ok _ _ _ _ _ (assert_then_ok _ _ _ _ _
    (assert_then_ok _ _ _ _ _ h)))).2
  have h := assert_then_ok _ _ _ _ _ (assert_then_ok _ _ _ _ _ h)
  split at h
  · rename_i g3 hloop
    cases h
    have := migrate_loop_n ops checked hdec fuel _ _ hloop
    simp only [var_opt_sketch.strip_marks]
    rw [this, hdec]
    split_ifs <;> rfl
  · cases h

theorem coercer_result (checked : Bool) (u : var_opt_union T) (sk sk1 : var_opt_sketch T)
    (h : mark_moving_gadget_coercer checked u sk = .ok sk1) :
    sk1 = { sk with
            data_ := (coercer_loops u.gadget_).data
            weights_ := (coercer_loops u.gadget_).wts.set (coercer_loops u.gadget_).result_h (-1)
            marks_ := []
            num_marks_in_h_ := 0
            curr_items_alloc_ := u.gadget_.h_ + u.gadget_.r_ + 1
            k_ := u.gadget_.h_ + u.gadget_.r_
            n_ := u.n_
            h_ := (coercer_loops u.gadget_).result_h
            r_ := (coercer_loops u.gadget_).result_r
            total_wt_r_ := u.gadget_.total_wt_r_ + (coercer_loops u.gadget_).transferred_weight } := by
  unfold mark_moving_gadget_coercer at h
  simp only at h
  have h := assert_then_ok _ _ _ _ _ (assert_then_ok _ _ _ _ _ h)
  cases h
  rfl

theorem coercer_n (checked : Bool) (u : var_opt_union T) (sk sk1 : var_opt_sketch T)
    (h : mark_moving_gadget_coercer checked u sk = .ok sk1) : sk1.n_ = u.n_ := by
  rw [coercer_result checked u sk sk1 h]

theorem detect_cases (checked : Bool) (u : var_opt_union T) (sk sk1 : var_opt_sketch T)
    (b : Bool) (h : detect_and_handle_subcase_of_pseudo_exact checked u sk = .ok (b, sk1)) :
    (b = false ∧ sk1 = sk) ∨
      (b = true ∧ mark_moving_gadget_coercer checked u sk = .ok sk1) := by
  unfold detect_and_handle_subcase_of_pseudo_exact at h
  simp only at h
  split_ifs at h
  · cases h; exact Or.inl ⟨rfl, rfl⟩
  · cases h; exact Or.inl ⟨rfl, rfl⟩
  · split at h
    · rename_i sk2 hc
      cases h
      exact Or.inr ⟨rfl, hc⟩
    · cases h

theorem get_result_n (ops : gadget_ops T) (checked : Bool)
    (hdec : ∀ s, (ops.decrease_k_by_1 s).n_ = s.n_) (fuel : Nat)
    (u : var_opt_union T) (sk : var_opt_sketch T)
    (h : get_result ops checked fuel u = .ok sk) : sk.n_ = u.n_ := by
  unfold get_result at h
  split_ifs at h with hm
  · unfold simple_gadget_coercer at h
    have h := assert_then_ok _ _ _ _ _ h
    cases h
    simp [var_opt_sketch.copy]
  · simp only at h
    split at h
    · cases h
    · rename_i b sk1 hd
      rcases detect_cases checked u _ sk1 b hd with ⟨hb, hsk⟩ | ⟨hb, hc⟩
      · subst hb
        subst hsk
        simp only [Bool.not_false, if_true] at h
        rw [migrate_n ops checked hdec fuel _ _ h]
        simp [var_opt_sketch.copy]
      · subst hb
        simp only [Bool.not_true] at h
        cases h
        exact coercer_n checked u _ _ hc

/-! ## The running pair `outer_tau_numer_ / outer_tau_denom_` -/

theorem mediant_of_equal (a c : ℚ) (b d : Nat) (hb : 0 < b) (hd : 0 < d)
    (h : c / (d : ℚ) = a / (b : ℚ)) : (a + c) / ((b + d : Nat) : ℚ) = a / (b : ℚ) := by
  have hb0 : (b : ℚ) ≠ 0 := by exact_mod_cast hb.ne.symm
  have hd0 : (d : ℚ) ≠ 0 := by exact_mod_cast hd.ne.symm
  have hbd : ((b : ℚ) + d) ≠ 0 := by positivity
  push_cast
  rw [div_eq_div_iff hd0 hb0] at h
  rw [div_eq_div_iff hbd hb0]
  linarith

theorem tau_pair_tracks_step (ops : gadget_ops T) (u : var_opt_union T)
    (seen : List (var_opt_sketch T)) (s : var_opt_sketch T)
    (hwf : s.h_ + s.r_ ≤ s.n_) (hinv : tau_pair_tracks u seen) :
    tau_pair_tracks (merge_into ops u s) (seen ++ [s]) := by
  unfold merge_into
  by_cases h0 : s.n_ = 0
  · have hr : s.r_ = 0 := by omega
    simp only [h0, if_true]
    rcases hinv with ⟨hd, hall⟩ | ⟨hd, ⟨m, hm, hmr, hmeq⟩, hmax⟩
    · left
      refine ⟨hd, ?_⟩
      intro x hx
      rcases List.mem_append.1 hx with hx | hx
      · exact hall x hx
      · rw [List.mem_singleton.1 hx]; exact hr
    · right
      refine ⟨hd, ⟨m, List.mem_append_left _ hm, hmr, hmeq⟩, ?_⟩
      intro x hx hxr
      rcases List.mem_append.1 hx with hx | hx
      · exact hmax x hx hxr
      · rw [List.mem_singleton.1 hx] at hxr; omega
  · simp only [h0, if_false]
    by_cases hr : 0 < s.r_
    · have hr0 : s.r_ ≠ 0 := by omega
      have hrq : (0 : ℚ) < (s.r_ : ℚ) := by exact_mod_cast hr
      simp only [hr, if_true, var_opt_sketch.get_tau, hr0, if_false, dbl_gt, dbl_eq,
        var_opt_union.get_outer_tau]
      rcases hinv with ⟨hd, hall⟩ | ⟨hd, ⟨m, hm, hmr, hmeq⟩, hmax⟩
      · simp only [hd, if_true]
        right
        refine ⟨hr, ⟨s, by simp, hr, rfl⟩, ?_⟩
        intro x hx hxr
        rcases List.mem_append.1 hx with hx | hx
        · have := hall x hx; omega
        · rw [List.mem_singleton.1 hx]; exact le_refl _
      · have hd0 : u.outer_tau_denom_ ≠ 0 := by omega
        simp only [hd0, if_false]
        by_cases hgt : s.total_wt_r_ / (s.r_ : ℚ) > u.outer_tau_numer_ / (u.outer_tau_denom_ : ℚ)
        · simp only [hgt, decide_True, if_true]
          right
          refine ⟨hr, ⟨s, by simp, hr, rfl⟩, ?_⟩
          intro x hx hxr
          rcases List.mem_append.1 hx with hx | hx
          · exact le_trans (hmax x hx hxr) (le_of_lt hgt)
          · rw [List.mem_singleton.1 hx]; exact le_refl _
        · simp only [hgt, decide_False, if_false, Bool.false_eq_true]
          by_cases heq : s.total_wt_r_ / (s.r_ : ℚ) = u.outer_tau_numer_ / (u.outer_tau_denom_ : ℚ)
          · simp only [heq, decide_True, if_true]
            have hmed := mediant_of_equal u.outer_tau_numer_ s.total_wt_r_
              u.outer_tau_denom_ s.r_ hd hr heq
            right
            refine ⟨by show 0 < u.outer_tau_denom_ + s.r_; omega, ⟨m, List.mem_append_left _ hm, hmr, ?_⟩, ?_⟩
            · show (u.outer_tau_numer_ + s.total_wt_r_) / ((u.outer_tau_denom_ + s.r_ : Nat) : ℚ) = _
              rw [hmed, hmeq]
            · intro x hx hxr
              show _ ≤ (u.outer_tau_numer_ + s.total_wt_r_) / ((u.outer_tau_denom_ + s.r_ : Nat) : ℚ)
              rw [hmed]
              rcases List.mem_append.1 hx with hx | hx
              · exact hmax x hx hxr
              · rw [List.mem_singleton.1 hx]; exact le_of_eq heq
          · simp only [heq, decide_False, if_false, Bool.false_eq_true]
            right
            refine ⟨hd, ⟨m, List.mem_append_left _ hm, hmr, hmeq⟩, ?_⟩
            intro x hx hxr
            rcases List.mem_append.1 hx with hx | hx
            · exact hmax x hx hxr
            · rw [List.mem_singleton.1 hx]
              exact le_of_not_gt hgt
    · simp only [hr, if_false]
      have hr0 : s.r_ = 0 := by omega
      rcases hinv with ⟨hd, hall⟩ | ⟨hd, ⟨m, hm, hmr, hmeq⟩, hmax⟩
      · left
        refine ⟨hd, ?_⟩
        intro x hx
        rcases List.mem_append.1 hx with hx | hx
        · exact hall x hx
        · rw [List.mem_singleton.1 hx]; exact hr0
      · right
        refine ⟨hd, ⟨m, List.mem_append_left _ hm, hmr, hmeq⟩, ?_⟩
        intro x hx hxr
        rcases List.mem_append.1 hx with hx | hx
        · exact hmax x hx hxr
        · rw [List.mem_singleton.1 hx] at hxr; omega

theorem tau_pair_tracks_merge_all (ops : gadget_ops T) (rest : List (var_opt_sketch T)) :
    ∀ (u : var_opt_union T) (seen : List (var_opt_sketch T)),
      (∀ s ∈ rest, s.h_ + s.r_ ≤ s.n_) → tau_pair_tracks u seen →
      tau_pair_tracks (merge_all ops u rest) (seen ++ rest) := by
  induction rest with
  | nil => intro u seen _ h; simpa [merge_all] using h
  | cons s rest ih =>
    intro u seen hwf h
    have hstep := tau_pair_tracks_step ops u seen s (hwf s (by simp)) h
    have := ih (merge_into ops u s) (seen ++ [s]) (fun x hx => hwf x (by simp [hx])) hstep
    simpa [merge_all] using this

theorem getD_write_slot {α : Type} (l : List α) (i j : Nat) (d v : α) :
    (write_slot l i d v).getD j d = if j = i then v else l.getD j d := by
  unfold write_slot
  simp only [List.getD_eq_getElem?_getD, List.getElem?_set, List.length_append,
    List.length_replicate]
  by_cases hji : j = i
  · subst hji
    have : j < l.length + (j + 1 - l.length) := by omega
    simp [this]
  · have hij : ¬ i = j := fun h => hji h.symm
    simp only [hij, hji, if_false]
    by_cases hj : j < l.length
    · rw [List.getElem?_append_left hj]
    · rw [List.getElem?_append_right (by omega)]
      rw [List.getElem?_eq_none (by omega : l.length ≤ j)]
      by_cases hj2 : j - l.length < i + 1 - l.length
      · rw [List.getElem?_replicate_of_lt hj2]; rfl
      · rw [List.getElem?_eq_none (by simp; omega)]

/-! ## Exact inputs below capacity -/

theorem h_samples_warmup_update (g : var_opt_sketch T) (x : T) (w : ℚ) (mark : Bool)
    (hr : g.r_ = 0) (hk : g.h_ < g.k_) :
    (warmup_update g x w mark).h_samples = g.h_samples ++ [(x, w)] := by
  unfold warmup_update
  rw [if_pos ⟨hr, hk⟩]
  simp only [var_opt_sketch.h_samples, List.range_succ, List.filterMap_append,
    getD_write_slot]
  congr 1
  · apply List.filterMap_congr
    intro i hi
    have : i ≠ g.h_ := by
      have := List.mem_range.1 hi
      omega
    simp [this]
  · simp

theorem reference_ops_appends_below_capacity :
    appends_below_capacity (reference_ops : gadget_ops T) := by
  intro g x w mark hr hk
  refine ⟨?_, ?_, ?_, h_samples_warmup_update g x w mark hr hk, ?_⟩ <;>
    simp [reference_ops, warmup_update, hr, hk]

theorem feed_h_below_capacity (ops : gadget_ops T) (hup : appends_below_capacity ops)
    (l : List (T × ℚ)) :
    ∀ g : var_opt_sketch T, g.r_ = 0 → g.h_ + l.length ≤ g.k_ →
      (l.foldl (fun g p => ops.update g p.1 p.2 false) g).r_ = 0 ∧
      (l.foldl (fun g p => ops.update g p.1 p.2 false) g).k_ = g.k_ ∧
      (l.foldl (fun g p => ops.update g p.1 p.2 false) g).h_ = g.h_ + l.length ∧
      (l.foldl (fun g p => ops.update g p.1 p.2 false) g).h_samples = g.h_samples ++ l ∧
      (l.foldl (fun g p => ops.update g p.1 p.2 false) g).num_marks_in_h_
        = g.num_marks_in_h_ := by
  induction l with
  | nil => intro g hr _; simp [hr]
  | cons p l ih =>
    intro g hr hk
    simp only [List.length_cons] at hk
    obtain ⟨h1, h2, h3, h4, h5⟩ := hup g p.1 p.2 false hr (by omega)
    obtain ⟨i1, i2, i3, i4, i5⟩ := ih (ops.update g p.1 p.2 false) h1 (by omega)
    simp only [List.foldl_cons, List.length_cons]
    refine ⟨i1, by rw [i2, h2], by rw [i3, h3]; omega, ?_, ?_⟩
    · rw [i4, h4]; simp
    · rw [i5, h5]; simp

theorem holds_exactly_step (ops : gadget_ops T) (hup : appends_below_capacity ops)
    (u : var_opt_union T) (max_k : Nat) (seen : List (var_opt_sketch T))
    (s : var_opt_sketch T) (hr : s.r_ = 0) (hn : s.h_ + s.r_ ≤ s.n_)
    (hlen : s.h_samples.length = s.h_)
    (hfit : (seen.map fun s => s.h_).sum + s.h_ ≤ max_k)
    (hinv : holds_exactly u max_k seen) :
    holds_exactly (merge_into ops u s) max_k (seen ++ [s]) := by
  obtain ⟨g1, g2, g3, g4, g5⟩ := hinv
  have hrs : s.r_samples = [] := by simp [var_opt_sketch.r_samples, hr]
  by_cases h0 : s.n_ = 0
  · have hh : s.h_ = 0 := by omega
    have hhs : s.h_samples = [] := by simp [var_opt_sketch.h_samples, hh]
    have : merge_into ops u s = u := by simp [merge_into, h0]
    rw [this]
    refine ⟨g1, g2, g3, ?_, ?_⟩
    · simp [g4, hh]
    · simp [g5, hhs]
  · have hg : (merge_into ops u s).gadget_ = feed_gadget ops u.gadget_ s := by
      unfold merge_into
      simp only [h0, if_false]
      split_ifs <;> rfl
    obtain ⟨f1, f2, f3, f4, f5⟩ := feed_h_below_capacity ops hup s.h_samples u.gadget_ g1
      (by rw [hlen, g4, g2]; exact hfit)
    unfold holds_exactly
    rw [hg]
    simp only [feed_gadget, hrs, List.foldl_nil]
    refine ⟨f1, by rw [f2, g2], by rw [f5, g3], ?_, ?_⟩
    · rw [f3, g4, hlen]; simp
    · rw [f4, g5]; simp

theorem holds_exactly_merge_all (ops : gadget_ops T) (hup : appends_below_capacity ops)
    (max_k : Nat) (rest : List (var_opt_sketch T)) :
    ∀ (u : var_opt_union T) (seen : List (var_opt_sketch T)),
      (∀ s ∈ rest, s.r_ = 0 ∧ s.h_ + s.r_ ≤ s.n_ ∧ s.h_samples.length = s.h_) →
      (seen.map fun s => s.h_).sum + (rest.map fun s => s.h_).sum ≤ max_k →
      holds_exactly u max_k seen →
      holds_exactly (merge_all ops u rest) max_k (seen ++ rest) := by
  induction rest with
  | nil => intro u seen _ _ h; simpa [merge_all] using h
  | cons s rest ih =>
    intro u seen hwf hfit h
    obtain ⟨hr, hn, hlen⟩ := hwf s (by simp)
    simp only [List.map_cons, List.sum_cons] at hfit
    have hstep := holds_exactly_step ops hup u max_k seen s hr hn hlen (by omega) h
    have := ih (merge_into ops u s) (seen ++ [s]) (fun x hx => hwf x (by simp [hx]))
      (by simp; omega) hstep
    simpa [merge_all] using this

theorem h_samples_copy (g : var_opt_sketch T) (b : Bool) (n : Nat) :
    (g.copy b n).h_samples = g.h_samples := by
  cases b <;> rfl

/-! ## The loops of `mark_moving_gadget_coercer` -/

theorem coercer_h_loop_counts (g : var_opt_sketch T) (l : List Nat) :
    ∀ st : coercer_state T,
      (l.foldl (coercer_h_step g) st).result_h
        = st.result_h + (l.filter fun i => !(g.marks_.getD i false)).length ∧
      (l.foldl (coercer_h_step g) st).result_r
        = st.result_r + (l.filter fun i => g.marks_.getD i false).length ∧
      (l.foldl (coercer_h_step g) st).transferred_weight
        = st.transferred_weight
          + ((l.filter fun i => g.marks_.getD i false).map fun i => g.weights_.getD i 0).sum := by
  induction l with
  | nil => intro st; simp
  | cons i l ih =>
    intro st
    obtain ⟨h1, h2, h3⟩ := ih (coercer_h_step g st i)
    simp only [List.foldl_cons]
    rw [h1, h2, h3]
    by_cases hm : g.marks_.getD i false = true
    · have hs : coercer_h_step g st i =
          { st with
            data := st.data.set st.next_r_pos (g.data_.getD i none)
            wts := st.wts.set st.next_r_pos (-1)
            transferred_weight := st.transferred_weight + g.weights_.getD i 0
            result_r := st.result_r + 1
            next_r_pos := st.next_r_pos - 1 } := by
        unfold coercer_h_step
        rw [if_pos hm]
      rw [hs]
      simp only [List.filter_cons, hm, Bool.not_true, if_true, List.length_cons,
        List.map_cons, List.sum_cons, Bool.false_eq_true, if_false]
      refine ⟨trivial, by omega, by ring⟩
    · have hs : coercer_h_step g st i =
          { st with
            data := st.data.set st.result_h (g.data_.getD i none)
            wts := st.wts.set st.result_h (g.weights_.getD i 0)
            result_h := st.result_h + 1 } := by
        unfold coercer_h_step
        rw [if_neg hm]
      have hm2 : g.marks_.getD i false = false := by
        cases h : g.marks_.getD i false
        · rfl
        · exact absurd h hm
      rw [hs]
      simp only [List.filter_cons, hm2, Bool.not_false, if_true, List.length_cons,
        Bool.false_eq_true, if_false]
      refine ⟨by omega, trivial, trivial⟩

theorem filter_marked_add_unmarked (g : var_opt_sketch T) (l : List Nat) :
    (l.filter fun i => g.marks_.getD i false).length
      + (l.filter fun i => !(g.marks_.getD i false)).length = l.length := by
  induction l with
  | nil => simp
  | cons i l ih =>
    cases hm : g.marks_.getD i false
    · simp only [List.filter_cons, hm, Bool.not_false, if_true, List.length_cons,
        Bool.false_eq_true, if_false]
      omega
    · simp only [List.filter_cons, hm, Bool.not_true, if_true, List.length_cons,
        Bool.false_eq_true, if_false]
      omega

theorem coercer_loops_exact (g : var_opt_sketch T) (hr : g.r_ = 0) :
    (coercer_loops g).result_h = g.h_ - marked_h_count g ∧
    (coercer_loops g).result_r = marked_h_count g ∧
    (coercer_loops g).transferred_weight = marked_h_weight g ∧
    marked_h_count g ≤ g.h_ := by
  have hsum := filter_marked_add_unmarked g (List.range g.h_)
  rw [List.length_range] at hsum
  obtain ⟨h1, h2, h3⟩ := coercer_h_loop_counts g (List.range g.h_)
    { data := List.replicate (g.h_ + 0 + 1) none, wts := List.replicate (g.h_ + 0 + 1) 0,
      result_h := 0, result_r := 0, next_r_pos := g.h_ + 0, transferred_weight := 0 }
  simp only [coercer_loops, var_opt_sketch.get_num_samples, hr, marked_h_count,
    marked_h_weight]
  simp only [Nat.add_sub_cancel_left, List.range'_zero, List.foldl_nil]
  rw [h1, h2, h3]
  dsimp only
  refine ⟨by omega, by omega, by ring, by omega⟩

/-! ## Evaluation on the concrete sketches -/

theorem range_one : List.range 1 = [0] := rfl

theorem range_two : List.range 2 = [0, 1] := rfl

theorem range_three : List.range 3 = [0, 1, 2] := rfl

theorem merge_all_pq :
    merge_all reference_ops (var_opt_union.new 10) [est_p, est_q] = union_pq := by
  simp [merge_all, merge_into, est_p, est_q, union_pq, var_opt_union.new,
    var_opt_sketch.empty, feed_gadget, var_opt_sketch.h_samples, var_opt_sketch.r_samples,
    reference_ops, warmup_update, write_slot, range_one, var_opt_sketch.get_tau,
    var_opt_union.get_outer_tau, dbl_gt, dbl_eq]

theorem merge_all_pqab :
    merge_all reference_ops (var_opt_union.new 10) [est_p, est_q, exact_ab] = union_pqab := by
  simp [merge_all, merge_into, exact_ab, est_p, est_q, union_pqab, var_opt_union.new,
    var_opt_sketch.empty, feed_gadget, var_opt_sketch.h_samples, var_opt_sketch.r_samples,
    reference_ops, warmup_update, write_slot, range_one, range_two, var_opt_sketch.get_tau,
    var_opt_union.get_outer_tau, dbl_gt, dbl_eq]

theorem get_result_pq (checked : Bool) :
    get_result reference_ops checked 1 union_pq = .ok result_pq := by
  simp [get_result, union_pq, result_pq, detect_and_handle_subcase_of_pseudo_exact,
    conditions_1_2_3, var_opt_sketch.copy, migrate_marked_items_by_decreasing_k, migrate_loop,
    assert_then, decrease_then, reference_ops, last_h_decrease_k_by_1, decrease_k_by_1_draw,
    absorb_last_h, evict_r_slot, write_slot, var_opt_sketch.get_tau, dbl_gt,
    var_opt_sketch.strip_marks]
  norm_num

theorem get_result_big :
    get_result reference_ops true 0
      (merge_all reference_ops (var_opt_union.new 10) [est_big, est_big]) = .ok result_big := by
  simp [merge_all, merge_into, est_big, result_big, var_opt_union.new,
    var_opt_sketch.empty, feed_gadget, var_opt_sketch.h_samples, var_opt_sketch.r_samples,
    reference_ops, warmup_update, write_slot, range_one, range_two, var_opt_sketch.get_tau,
    var_opt_union.get_outer_tau, dbl_gt, dbl_eq, get_result,
    detect_and_handle_subcase_of_pseudo_exact, conditions_1_2_3,
    there_exist_unmarked_h_items_lighter_than_target, dbl_lt, mark_moving_gadget_coercer,
    coercer_loops, coercer_h_step, var_opt_sketch.get_num_samples, var_opt_sketch.copy,
    assert_then]
  norm_num

theorem merge_all_abp :
    merge_all reference_ops (var_opt_union.new 10) [exact_ab, est_p] = union_abp := by
  simp [merge_all, merge_into, exact_ab, est_p, union_abp, var_opt_union.new,
    var_opt_sketch.empty, feed_gadget, var_opt_sketch.h_samples, var_opt_sketch.r_samples,
    reference_ops, warmup_update, write_slot, range_one, range_two, var_opt_sketch.get_tau,
    var_opt_union.get_outer_tau, dbl_gt, dbl_eq]

theorem merge_all_abcd :
    merge_all reference_ops (var_opt_union.new 10) [exact_ab, exact_cd] = union_abcd := by
  simp [merge_all, merge_into, exact_ab, exact_cd, union_abcd, var_opt_union.new,
    var_opt_sketch.empty, feed_gadget, var_opt_sketch.h_samples, var_opt_sketch.r_samples,
    reference_ops, warmup_update, write_slot, range_two]

theorem coercer_abp (checked : Bool) (sk : var_opt_sketch String) :
    mark_moving_gadget_coercer checked union_abp sk = .ok result_abp := by
  simp [union_abp, result_abp, mark_moving_gadget_coercer, coercer_loops, coercer_h_step,
    var_opt_sketch.get_num_samples, range_three, assert_then]

theorem get_result_abp (ops : gadget_ops String) (checked : Bool) (fuel : Nat) :
    get_result ops checked fuel union_abp = .ok result_abp := by
  have hc := coercer_abp checked (union_abp.gadget_.copy false union_abp.n_)
  simp only [get_result, detect_and_handle_subcase_of_pseudo_exact, hc]
  simp [union_abp, conditions_1_2_3, there_exist_unmarked_h_items_lighter_than_target,
    var_opt_sketch.get_tau, dbl_lt]

theorem merge_reset_merge_xy :
    merge_into reference_ops
      (merge_into reference_ops (var_opt_union.new 10) est_uv).reset est_xy
      = union_uv_reset_xy := by
  simp [merge_into, est_uv, est_xy, union_uv_reset_xy, var_opt_union.new, var_opt_union.reset,
    var_opt_sketch.reset, var_opt_sketch.empty, feed_gadget, var_opt_sketch.h_samples,
    var_opt_sketch.r_samples, reference_ops, warmup_update, write_slot, range_two,
    var_opt_sketch.get_tau, var_opt_union.get_outer_tau, dbl_gt, dbl_eq]
  norm_num

theorem merge_reset_merge_q :
    merge_into reference_ops
      (merge_into reference_ops (var_opt_union.new 10) est_uv).reset est_q
      = union_uv_reset_q := by
  simp [merge_into, est_uv, est_q, union_uv_reset_q, var_opt_union.new, var_opt_union.reset,
    var_opt_sketch.reset, var_opt_sketch.empty, feed_gadget, var_opt_sketch.h_samples,
    var_opt_sketch.r_samples, reference_ops, warmup_update, write_slot, range_one, range_two,
    var_opt_sketch.get_tau, var_opt_union.get_outer_tau, dbl_gt, dbl_eq]
  norm_num

theorem get_result_uv_reset_xy (ops : gadget_ops String) (fuel : Nat) :
    get_result ops true fuel union_uv_reset_xy = .error (.assertion 300) := by
  simp [get_result, union_uv_reset_xy, detect_and_handle_subcase_of_pseudo_exact,
    conditions_1_2_3, there_exist_unmarked_h_items_lighter_than_target,
    var_opt_sketch.get_tau, dbl_lt, mark_moving_gadget_coercer, coercer_loops, coercer_h_step,
    var_opt_sketch.get_num_samples, range_two, var_opt_sketch.copy, assert_then]
  norm_num

theorem get_result_uv_reset_q (ops : gadget_ops String) (fuel : Nat) :
    get_result ops true fuel union_uv_reset_q = .error (.assertion 347) := by
  simp [get_result, union_uv_reset_q, detect_and_handle_subcase_of_pseudo_exact,
    conditions_1_2_3, migrate_marked_items_by_decreasing_k, var_opt_sketch.copy, assert_then]

theorem absorb_last_h_n (s : var_opt_sketch T) : (absorb_last_h s).n_ = s.n_ := by
  unfold absorb_last_h
  split_ifs <;> rfl

theorem evict_r_slot_n (j : Nat) (s : var_opt_sketch T) : (evict_r_slot j s).n_ = s.n_ := by
  unfold evict_r_slot
  split_ifs <;> rfl

theorem decrease_k_by_1_draw_n (j : Nat) (s : var_opt_sketch T) :
    (decrease_k_by_1_draw j s).n_ = s.n_ := by
  unfold decrease_k_by_1_draw
  split_ifs
  · rfl
  · show (evict_r_slot j (absorb_last_h (absorb_last_h s))).n_ = s.n_
    rw [evict_r_slot_n, absorb_last_h_n, absorb_last_h_n]
  · show (evict_r_slot j (absorb_last_h s)).n_ = s.n_
    rw [evict_r_slot_n, absorb_last_h_n]

theorem reference_decrease_n (s : var_opt_sketch T) :
    ((reference_ops : gadget_ops T).decrease_k_by_1 s).n_ = s.n_ :=
  decrease_k_by_1_draw_n 0 s

/-! ## The pseudo-exact test -/

theorem conditions_1_2_3_iff (u : var_opt_union T) :
    conditions_1_2_3 u = true ↔
      (u.gadget_.r_ = 0 ∧ 0 < u.gadget_.num_marks_in_h_ ∧
        u.gadget_.num_marks_in_h_ = u.outer_tau_denom_) := by
  simp [conditions_1_2_3, and_assoc]

theorem anti_condition4_false_iff (u : var_opt_union T) :
    there_exist_unmarked_h_items_lighter_than_target u u.gadget_.get_tau = false ↔
      condition_4 u := by
  unfold there_exist_unmarked_h_items_lighter_than_target condition_4
  rw [Bool.eq_false_iff, ne_eq, List.any_eq_true]
  constructor
  · intro h i hi hmark t ht hlt
    apply h
    refine ⟨i, List.mem_range.2 hi, ?_⟩
    rw [ht, hmark]
    simp only [dbl_lt, hlt, decide_True, Bool.not_false, Bool.and_self]
  · rintro h ⟨i, hi, hp⟩
    rw [Bool.and_eq_true] at hp
    obtain ⟨hlt, hmark⟩ := hp
    have hmark2 : u.gadget_.marks_.getD i false = false := by
      cases hm : u.gadget_.marks_.getD i false
      · rfl
      · rw [hm] at hmark; cases hmark
    cases ht : u.gadget_.get_tau with
    | none => rw [ht] at hlt; cases hlt
    | some t =>
      rw [ht] at hlt
      exact h i (List.mem_range.1 hi) hmark2 t ht (by simpa [dbl_lt] using hlt)

theorem detect_of_four_conditions (checked : Bool) (u : var_opt_union T)
    (sk : var_opt_sketch T) (h : four_conditions u) :
    detect_and_handle_subcase_of_pseudo_exact checked u sk =
      match mark_moving_gadget_coercer checked u sk with
      | .ok sk1 => .ok (true, sk1)
      | .error e => .error e := by
  obtain ⟨c1, c2, c3, c4⟩ := h
  have h123 := (conditions_1_2_3_iff u).2 ⟨c1, c2, c3⟩
  have h4 := (anti_condition4_false_iff u).2 c4
  unfold detect_and_handle_subcase_of_pseudo_exact
  simp only [h123, h4, Bool.not_true, Bool.false_eq_true, if_false]

theorem detect_of_not_four_conditions (checked : Bool) (u : var_opt_union T)
    (sk : var_opt_sketch T) (h : ¬ four_conditions u) :
    detect_and_handle_subcase_of_pseudo_exact checked u sk = .ok (false, sk) := by
  unfold detect_and_handle_subcase_of_pseudo_exact
  by_cases h123 : conditions_1_2_3 u = true
  · have h4 : there_exist_unmarked_h_items_lighter_than_target u u.gadget_.get_tau = true := by
      cases hb : there_exist_unmarked_h_items_lighter_than_target u u.gadget_.get_tau
      · exfalso
        apply h
        obtain ⟨c1, c2, c3⟩ := (conditions_1_2_3_iff u).1 h123
        exact ⟨c1, c2, c3, (anti_condition4_false_iff u).1 hb⟩
      · rfl
    simp only [h123, h4, Bool.not_true, Bool.false_eq_true, if_false, if_true]
  · have h123f : conditions_1_2_3 u = false := by
      cases hb : conditions_1_2_3 u
      · rfl
      · exact absurd hb h123
    simp only [h123f, Bool.not_false, if_true]

/-! ## The k-decrease fallback -/

theorem marked_h_count_le (g : var_opt_sketch T) : marked_h_count g ≤ g.h_ := by
  unfold marked_h_count
  calc ((List.range g.h_).filter fun i => g.marks_.getD i false).length
      ≤ (List.range g.h_).length := List.length_filter_le _ _
    _ = g.h_ := List.length_range _

theorem marked_h_count_succ (g : var_opt_sketch T) (h : Nat) (hh : g.h_ = h + 1) :
    marked_h_count g
      = marked_h_count { g with h_ := h } + (if g.marks_.getD h false then 1 else 0) := by
  unfold marked_h_count
  rw [hh]
  simp only [List.range_succ, List.filter_append, List.length_append]
  cases hm : g.marks_.getD h false <;>
    simp only [List.filter_cons, List.filter_nil, hm, if_true, if_false, List.length_cons,
      List.length_nil, Bool.false_eq_true]

theorem marked_h_count_congr (s t : var_opt_sketch T) (hh : s.h_ = t.h_)
    (hm : s.marks_ = t.marks_) : marked_h_count s = marked_h_count t := by
  unfold marked_h_count
  rw [hh, hm]

theorem getD_set_ne {α : Type} (l : List α) (i j : Nat) (d v : α) (h : j ≠ i) :
    (l.set j v).getD i d = l.getD i d := by
  rw [List.getD_eq_getElem?_getD, List.getD_eq_getElem?_getD, List.getElem?_set_ne h]

theorem getD_write_slot_ne {α : Type} (l : List α) (i j : Nat) (d v : α) (h : j ≠ i) :
    (write_slot l i d v).getD j d = l.getD j d := by
  rw [getD_write_slot, if_neg h]

theorem absorb_last_h_eq (g : var_opt_sketch T) (hh : 0 < g.h_) :
    absorb_last_h g =
      { g with
        data_ := (write_slot g.data_ g.h_ none (g.data_.getD (g.h_ - 1) none)).set (g.h_ - 1) none
        weights_ := (write_slot g.weights_ g.h_ 0 (-1)).set (g.h_ - 1) (-1)
        total_wt_r_ := g.total_wt_r_ + g.weights_.getD (g.h_ - 1) 0
        h_ := g.h_ - 1
        r_ := g.r_ + 1
        num_marks_in_h_ :=
          g.num_marks_in_h_ - (if g.marks_.getD (g.h_ - 1) false then 1 else 0) } := by
  unfold absorb_last_h
  rw [if_pos hh]

theorem absorb_last_h_keeps (g : var_opt_sketch T) (hh : 0 < g.h_)
    (hm : g.num_marks_in_h_ = marked_h_count g) (ht : 0 ≤ g.total_wt_r_)
    (hw : ∀ i, i < g.h_ → 0 < g.weights_.getD i 0) :
    (absorb_last_h g).k_ = g.k_ ∧ (absorb_last_h g).h_ + 1 = g.h_ ∧
    (absorb_last_h g).r_ = g.r_ + 1 ∧
    (absorb_last_h g).num_marks_in_h_ = marked_h_count (absorb_last_h g) ∧
    0 < (absorb_last_h g).total_wt_r_ ∧
    ∀ i, i < (absorb_last_h g).h_ → 0 < (absorb_last_h g).weights_.getD i 0 := by
  rw [absorb_last_h_eq g hh]
  refine ⟨rfl, ?_, rfl, ?_, ?_, ?_⟩
  · show g.h_ - 1 + 1 = g.h_
    omega
  · have hsucc := marked_h_count_succ g (g.h_ - 1) (by omega)
    show g.num_marks_in_h_ - (if g.marks_.getD (g.h_ - 1) false then 1 else 0)
      = marked_h_count { g with h_ := g.h_ - 1 }
    split_ifs at hsucc ⊢ <;> omega
  · show 0 < g.total_wt_r_ + g.weights_.getD (g.h_ - 1) 0
    have := hw (g.h_ - 1) (by omega)
    linarith
  · intro i hi
    have hi2 : i < g.h_ - 1 := hi
    show 0 < ((write_slot g.weights_ g.h_ 0 (-1)).set (g.h_ - 1) (-1)).getD i 0
    rw [getD_set_ne _ _ _ _ _ (by omega), getD_write_slot_ne _ _ _ _ _ (by omega)]
    exact hw i (by omega)

theorem evict_r_slot_keeps (j : Nat) (g : var_opt_sketch T) :
    (evict_r_slot j g).k_ = g.k_ ∧ (evict_r_slot j g).h_ = g.h_ ∧
    (evict_r_slot j g).r_ = g.r_ - 1 ∧ (evict_r_slot j g).n_ = g.n_ ∧
    (evict_r_slot j g).total_wt_r_ = g.total_wt_r_ ∧
    (evict_r_slot j g).num_marks_in_h_ = g.num_marks_in_h_ ∧
    (evict_r_slot j g).weights_ = g.weights_ ∧ (evict_r_slot j g).marks_ = g.marks_ := by
  unfold evict_r_slot
  split_ifs with hr
  · exact ⟨rfl, rfl, rfl, rfl, rfl, rfl, rfl, rfl⟩
  · exact ⟨rfl, rfl, by omega, rfl, rfl, rfl, rfl, rfl⟩

theorem evict_after_absorb (j : Nat) (s g2 : var_opt_sketch T)
    (hm : g2.num_marks_in_h_ = marked_h_count g2) (ht : 0 < g2.total_wt_r_)
    (hw : ∀ i, i < g2.h_ → 0 < g2.weights_.getD i 0)
    (hfull : s.k_ = g2.h_ + g2.r_) (hr : 2 ≤ g2.r_) (hh : g2.h_ < s.h_) :
    full_sketch { evict_r_slot j g2 with k_ := s.k_ - 1 } ∧
    ({ evict_r_slot j g2 with k_ := s.k_ - 1 } : var_opt_sketch T).k_ + 1 = s.k_ ∧
    ({ evict_r_slot j g2 with k_ := s.k_ - 1 } : var_opt_sketch T).h_ < s.h_ ∧
    0 < ({ evict_r_slot j g2 with k_ := s.k_ - 1 } : var_opt_sketch T).r_ ∧
    0 < ({ evict_r_slot j g2 with k_ := s.k_ - 1 } : var_opt_sketch T).total_wt_r_ := by
  obtain ⟨_, e2, e3, _, e5, e6, e7, e8⟩ := evict_r_slot_keeps j g2
  refine ⟨⟨?_, ?_, ?_, ?_⟩, ?_, ?_, ?_, ?_⟩
  · show s.k_ - 1 = (evict_r_slot j g2).h_ + (evict_r_slot j g2).r_
    omega
  · show (evict_r_slot j g2).num_marks_in_h_ = marked_h_count { evict_r_slot j g2 with k_ := s.k_ - 1 }
    rw [e6, hm]
    exact marked_h_count_congr _ _ e2.symm e8.symm
  · show 0 ≤ (evict_r_slot j g2).total_wt_r_
    rw [e5]
    exact le_of_lt ht
  · intro i hi
    have hi2 : i < (evict_r_slot j g2).h_ := hi
    show 0 < (evict_r_slot j g2).weights_.getD i 0
    rw [e7]
    exact hw i (by omega)
  · show s.k_ - 1 + 1 = s.k_
    omega
  · show (evict_r_slot j g2).h_ < s.h_
    omega
  · show 0 < (evict_r_slot j g2).r_
    omega
  · show 0 < (evict_r_slot j g2).total_wt_r_
    rw [e5]
    exact ht

theorem decrease_k_by_1_draw_full (j : Nat) (s : var_opt_sketch T) (hf : full_sketch s)
    (hk : 2 ≤ s.k_) (hh : 0 < s.h_) :
    full_sketch (decrease_k_by_1_draw j s) ∧
    (decrease_k_by_1_draw j s).k_ + 1 = s.k_ ∧
    (decrease_k_by_1_draw j s).h_ < s.h_ ∧
    0 < (decrease_k_by_1_draw j s).r_ ∧
    0 < (decrease_k_by_1_draw j s).total_wt_r_ := by
  obtain ⟨hkf, hm, ht, hw⟩ := hf
  have hcond : ¬ (s.r_ = 0 ∧ s.h_ < s.k_) := by omega
  obtain ⟨_, a2, a3, a4, a5, a6⟩ := absorb_last_h_keeps s hh hm ht hw
  by_cases hr : s.r_ = 0
  · have hd : decrease_k_by_1_draw j s
        = { evict_r_slot j (absorb_last_h (absorb_last_h s)) with k_ := s.k_ - 1 } := by
      unfold decrease_k_by_1_draw
      rw [if_neg hcond]
      show { evict_r_slot j
              (if s.r_ = 0 then absorb_last_h (absorb_last_h s) else absorb_last_h s) with
            k_ := s.k_ - 1 } = _
      rw [if_pos hr]
    rw [hd]
    obtain ⟨_, b2, b3, b4, b5, b6⟩ :=
      absorb_last_h_keeps (absorb_last_h s) (by omega) a4 (le_of_lt a5) a6
    exact evict_after_absorb j s _ b4 b5 b6 (by omega) (by omega) (by omega)
  · have hd : decrease_k_by_1_draw j s
        = { evict_r_slot j (absorb_last_h s) with k_ := s.k_ - 1 } := by
      unfold decrease_k_by_1_draw
      rw [if_neg hcond]
      show { evict_r_slot j
              (if s.r_ = 0 then absorb_last_h (absorb_last_h s) else absorb_last_h s) with
            k_ := s.k_ - 1 } = _
      rw [if_neg hr]
    rw [hd]
    exact evict_after_absorb j s _ a4 a5 a6 (by omega) (by omega) (by omega)

theorem drawing_ops_decreases_full_sketch (draw : var_opt_sketch T → Nat) :
    decreases_full_sketch (drawing_ops draw) :=
  fun s hf hk hh => decrease_k_by_1_draw_full (draw s) s hf hk hh

theorem reference_ops_decreases_full_sketch :
    decreases_full_sketch (reference_ops : gadget_ops T) :=
  fun s hf hk hh => decrease_k_by_1_draw_full 0 s hf hk hh

theorem migrate_loop_returns (ops : gadget_ops T) (checked : Bool)
    (hc : decreases_full_sketch ops) (fuel : Nat) :
    ∀ g : var_opt_sketch T, full_sketch g → 0 < g.r_ → g.h_ ≤ fuel →
      ∃ sk, migrate_loop ops checked fuel g = .ok sk ∧ sk.num_marks_in_h_ = 0 ∧
        full_sketch sk := by
  induction fuel with
  | zero =>
    intro g hf _ hh
    have hle := marked_h_count_le g
    have hm : g.num_marks_in_h_ = 0 := by
      have := hf.2.1
      omega
    exact ⟨g, by simp [migrate_loop, hm], hm, hf⟩
  | succ fuel ih =>
    intro g hf hr hh
    unfold migrate_loop
    by_cases hm : g.num_marks_in_h_ = 0
    · exact ⟨g, by simp [hm], hm, hf⟩
    · rw [if_neg hm]
      have hle := marked_h_count_le g
      have hcons := hf.2.1
      have hfull := hf.1
      have hk : 2 ≤ g.k_ := by omega
      rw [assert_then_pass _ _ _ _ (decide_eq_true hk), decrease_then_pos _ _ _ hk]
      obtain ⟨hf2, _, hlt, hr2, _⟩ := hc g hf hk (by omega)
      exact ih _ hf2 hr2 (by omega)

theorem migrate_returns (ops : gadget_ops T) (checked : Bool) (hc : decreases_full_sketch ops)
    (gcopy : var_opt_sketch T) (hpos : 0 < gcopy.num_marks_in_h_)
    (hcons : gcopy.num_marks_in_h_ = marked_h_count gcopy)
    (hwt : 0 ≤ gcopy.total_wt_r_)
    (hw : ∀ i, i < gcopy.h_ → 0 < gcopy.weights_.getD i 0)
    (hshape : gcopy.k_ = gcopy.h_ + gcopy.r_ ∨ (gcopy.r_ = 0 ∧ gcopy.h_ < gcopy.k_))
    (htwo : 2 ≤ gcopy.h_ + gcopy.r_) (fuel : Nat) (hfuel : gcopy.h_ - 1 ≤ fuel) :
    ∃ sk g, migrate_marked_items_by_decreasing_k ops checked fuel gcopy = .ok sk ∧
      sk.num_marks_in_h_ = 0 ∧ sk = g.strip_marks ∧ g.num_marks_in_h_ = 0 ∧
      marked_h_count g = 0 := by
  have hle := marked_h_count_le gcopy
  have h337 : gcopy.r_ = 0 ∨ gcopy.k_ = gcopy.h_ + gcopy.r_ := by
    rcases hshape with h | h
    · exact Or.inr h
    · exact Or.inl h.1
  unfold migrate_marked_items_by_decreasing_k
  simp only
  rw [assert_then_pass _ _ _ _ (decide_eq_true hpos),
    assert_then_pass _ _ _ _ (decide_eq_true h337)]
  generalize hg1 : (if gcopy.r_ = 0 ∧ gcopy.h_ < gcopy.k_ then { gcopy with k_ := gcopy.h_ }
    else gcopy) = g1
  have hg1h : g1.h_ = gcopy.h_ := by
    rw [← hg1]; split_ifs <;> rfl
  have hg1r : g1.r_ = gcopy.r_ := by
    rw [← hg1]; split_ifs <;> rfl
  have hg1f : full_sketch g1 := by
    rw [← hg1]
    split_ifs with hs
    · exact ⟨by show gcopy.h_ = gcopy.h_ + gcopy.r_; omega, hcons, hwt, hw⟩
    · refine ⟨?_, hcons, hwt, hw⟩
      rcases hshape with h | h
      · exact h
      · exact absurd h hs
  have hk : 2 ≤ g1.k_ := by
    have := hg1f.1
    omega
  rw [assert_then_pass _ _ _ _ (decide_eq_true hk), decrease_then_pos _ _ _ hk]
  obtain ⟨hf2, _, hlt, hr2, ht2⟩ := hc g1 hg1f hk (by omega)
  have htau : dbl_gt (ops.decrease_k_by_1 g1).get_tau 0 = true := by
    have hr0 : ¬ (ops.decrease_k_by_1 g1).r_ = 0 := by omega
    have hrq : (0 : ℚ) < ((ops.decrease_k_by_1 g1).r_ : ℚ) := by exact_mod_cast hr2
    simp only [var_opt_sketch.get_tau, if_neg hr0, dbl_gt]
    exact decide_eq_true (div_pos ht2 hrq)
  rw [assert_then_pass _ _ _ _ (decide_eq_true hr2), assert_then_pass _ _ _ _ htau]
  obtain ⟨sk, hok, hm0, hfsk⟩ := migrate_loop_returns ops checked hc fuel _ hf2 hr2 (by omega)
  rw [hok]
  exact ⟨sk.strip_marks, sk, rfl, rfl, rfl, hm0, by rw [← hfsk.2.1, hm0]⟩

theorem coercer_unchecked_returns (u : var_opt_union T) (sk : var_opt_sketch T) :
    ∃ sk1, mark_moving_gadget_coercer false u sk = .ok sk1 := by
  unfold mark_moving_gadget_coercer
  simp only [assert_then_unchecked]
  exact ⟨_, rfl⟩

theorem get_result_returns (ops : gadget_ops T) (hc : decreases_full_sketch ops)
    (u : var_opt_union T)
    (hcons : u.gadget_.num_marks_in_h_ = marked_h_count u.gadget_)
    (hwt : 0 ≤ u.gadget_.total_wt_r_)
    (hw : ∀ i, i < u.gadget_.h_ → 0 < u.gadget_.weights_.getD i 0)
    (hshape : u.gadget_.k_ = u.gadget_.h_ + u.gadget_.r_ ∨
      (u.gadget_.r_ = 0 ∧ u.gadget_.h_ < u.gadget_.k_))
    (htwo : 0 < u.gadget_.num_marks_in_h_ → ¬ four_conditions u →
      2 ≤ u.gadget_.h_ + u.gadget_.r_) :
    ∃ sk, get_result ops false (u.gadget_.h_ - 1) u = .ok sk := by
  unfold get_result
  by_cases hm : u.gadget_.num_marks_in_h_ = 0
  · rw [if_pos hm]
    exact ⟨u.gadget_.copy true u.n_, by simp [simple_gadget_coercer, assert_then]⟩
  · rw [if_neg hm]
    simp only
    by_cases hf : four_conditions u
    · obtain ⟨sk1, hok⟩ := coercer_unchecked_returns u (u.gadget_.copy false u.n_)
      rw [detect_of_four_conditions false u _ hf, hok]
      exact ⟨sk1, rfl⟩
    · rw [detect_of_not_four_conditions false u _ hf]
      simp only [Bool.not_false, if_true]
      obtain ⟨sk, _, hok, _⟩ := migrate_returns ops false hc (u.gadget_.copy false u.n_)
        (by simp only [var_opt_sketch.copy]; exact Nat.pos_of_ne_zero hm)
        (by simpa [var_opt_sketch.copy, marked_h_count] using hcons)
        (by simpa [var_opt_sketch.copy] using hwt)
        (by simpa [var_opt_sketch.copy] using hw)
        (by simpa [var_opt_sketch.copy] using hshape)
        (by simpa [var_opt_sketch.copy] using htwo (Nat.pos_of_ne_zero hm) hf)
        (u.gadget_.h_ - 1) (by simp [var_opt_sketch.copy])
      exact ⟨sk, hok⟩

/-! ## Claims -/

/-- C1 fails for the plain sum on inputs whose `n` add up to `2 ^ 64`: a fresh
union of capacity 10 merges twice the sketch `est_big`, which has `n = 2 ^ 63`;
`get_result()` returns, after the pseudo-exact coercion, a sketch with `n = 0`,
while the `n` of the merged inputs add up to `2 ^ 64`. -/
theorem C1_sum_of_inputs_wraps_at_two_pow_64 :
    get_result reference_ops true 0
        (merge_all reference_ops (var_opt_union.new 10) [est_big, est_big])
      = .ok result_big ∧
    result_big.n_ = 0 ∧
    ([est_big, est_big].map fun s => s.n_).sum = 2 ^ 64 ∧
    result_big.n_ ≠ ([est_big, est_big].map fun s => s.n_).sum := by
  refine ⟨get_result_big, rfl, ?_, ?_⟩ <;> simp [est_big, result_big]

/-- C1. Additivity of n modulo the word size: for a fresh union and
every finite sequence of `merge_into` calls, every sketch that `get_result`
returns - on the fast path, after the pseudo-exact coercion or after the
k-decrease fallback, with assertions compiled in or out - has `n` equal to the
sum of the `n` of all merged inputs reduced modulo `2 ^ 64`, hence equal to
that sum whenever the sum is below `2 ^ 64`. The gadget operations are
arbitrary, `decrease_k_by_1` leaving the item count `n` of a sketch alone. A
sketch is returned indeed: when `decrease_k_by_1` meets its contract on full
sketches and the gadget is well formed (mark counter equal to the number of
marked H slots, positive H weights, full or exact below capacity, and two
samples at least where the fallback is taken), `get_result` with assertions
compiled out returns within `h - 1` loop iterations. -/
theorem C1_result_n_is_sum_of_inputs (ops : gadget_ops T)
    (hdec : ∀ s, (ops.decrease_k_by_1 s).n_ = s.n_)
    (max_k : Nat) (sketches : List (var_opt_sketch T)) :
    (∀ (checked : Bool) (fuel : Nat) (sk : var_opt_sketch T),
      get_result ops checked fuel (merge_all ops (var_opt_union.new max_k) sketches) = .ok sk →
      sk.n_ = (sketches.map fun s => s.n_).sum % 2 ^ 64 ∧
      ((sketches.map fun s => s.n_).sum < 2 ^ 64 →
        sk.n_ = (sketches.map fun s => s.n_).sum)) ∧
    (decreases_full_sketch ops →
      (merge_all ops (var_opt_union.new max_k) sketches).gadget_.num_marks_in_h_
        = marked_h_count (merge_all ops (var_opt_union.new max_k) sketches).gadget_ →
      0 ≤ (merge_all ops (var_opt_union.new max_k) sketches).gadget_.total_wt_r_ →
      (∀ i, i < (merge_all ops (var_opt_union.new max_k) sketches).gadget_.h_ →
        0 < (merge_all ops (var_opt_union.new max_k) sketches).gadget_.weights_.getD i 0) →
      ((merge_all ops (var_opt_union.new max_k) sketches).gadget_.k_
          = (merge_all ops (var_opt_union.new max_k) sketches).gadget_.h_
            + (merge_all ops (var_opt_union.new max_k) sketches).gadget_.r_ ∨
        ((merge_all ops (var_opt_union.new max_k) sketches).gadget_.r_ = 0 ∧
          (merge_all ops (var_opt_union.new max_k) sketches).gadget_.h_
            < (merge_all ops (var_opt_union.new max_k) sketches).gadget_.k_)) →
      (0 < (merge_all ops (var_opt_union.new max_k) sketches).gadget_.num_marks_in_h_ →
        ¬ four_conditions (merge_all ops (var_opt_union.new max_k) sketches) →
        2 ≤ (merge_all ops (var_opt_union.new max_k) sketches).gadget_.h_
          + (merge_all ops (var_opt_union.new max_k) sketches).gadget_.r_) →
      ∃ sk, get_result ops false
          ((merge_all ops (var_opt_union.new max_k) sketches).gadget_.h_ - 1)
          (merge_all ops (var_opt_union.new max_k) sketches) = .ok sk ∧
        sk.n_ = (sketches.map fun s => s.n_).sum % 2 ^ 64) := by
  have hn : ∀ (checked : Bool) (fuel : Nat) (sk : var_opt_sketch T),
      get_result ops checked fuel (merge_all ops (var_opt_union.new max_k) sketches) = .ok sk →
      sk.n_ = (sketches.map fun s => s.n_).sum % 2 ^ 64 := by
    intro checked fuel sk hres
    rw [get_result_n ops checked hdec fuel _ sk hres,
      merge_all_n ops sketches _ (by simp [var_opt_union.new])]
    simp [var_opt_union.new]
  refine ⟨fun checked fuel sk hres => ⟨hn checked fuel sk hres, fun hlt => ?_⟩, ?_⟩
  · rw [hn checked fuel sk hres, Nat.mod_eq_of_lt hlt]
  · intro hc hcons hwt hw hshape htwo
    obtain ⟨sk, hok⟩ := get_result_returns ops hc _ hcons hwt hw hshape htwo
    exact ⟨sk, hok, hn false _ sk hok⟩

theorem four_conditions_pq_fail : ¬ four_conditions union_pq := by
  rintro ⟨_, _, h3, _⟩
  revert h3
  decide

/-- Witness of C1: the union of capacity 10 that merged `est_p` and `est_q`
materializes, through the k-decrease fallback, a sketch with `n = 5`. -/
theorem C1_result_n_is_sum_of_inputs_witness :
    (∀ s, ((reference_ops : gadget_ops String).decrease_k_by_1 s).n_ = s.n_) ∧
    ¬ four_conditions (merge_all reference_ops (var_opt_union.new 10) [est_p, est_q]) ∧
    get_result reference_ops true 1
        (merge_all reference_ops (var_opt_union.new 10) [est_p, est_q])
      = .ok result_pq ∧
    (result_pq.n_ = ([est_p, est_q].map fun s => s.n_).sum % 2 ^ 64 ∧
      (([est_p, est_q].map fun s => s.n_).sum < 2 ^ 64 →
        result_pq.n_ = ([est_p, est_q].map fun s => s.n_).sum)) ∧
    ∃ sk, get_result reference_ops false
        ((merge_all reference_ops (var_opt_union.new 10) [est_p, est_q]).gadget_.h_ - 1)
        (merge_all reference_ops (var_opt_union.new 10) [est_p, est_q]) = .ok sk ∧
      sk.n_ = ([est_p, est_q].map fun s => s.n_).sum % 2 ^ 64 :=
  have hw : ∀ i, i < union_pq.gadget_.h_ → 0 < union_pq.gadget_.weights_.getD i 0 := by
    intro i hi
    have hi2 : i < 2 := hi
    interval_cases i <;> simp [union_pq]
  ⟨reference_decrease_n, by rw [merge_all_pq]; exact four_conditions_pq_fail,
   by rw [merge_all_pq, get_result_pq],
   (C1_result_n_is_sum_of_inputs reference_ops reference_decrease_n 10
     [est_p, est_q]).1 true 1 result_pq (by rw [merge_all_pq, get_result_pq]),
   (C1_result_n_is_sum_of_inputs reference_ops reference_decrease_n 10
     [est_p, est_q]).2 reference_ops_decreases_full_sketch
     (by rw [merge_all_pq]; simp [marked_h_count, union_pq, range_two])
     (by rw [merge_all_pq]; exact le_refl _)
     (by rw [merge_all_pq]; exact hw)
     (by rw [merge_all_pq]; exact Or.inr ⟨rfl, by decide⟩)
     (by rw [merge_all_pq]; intro _ _; decide)⟩

/-- C2. Max-tau tracking: after a fresh union has merged any sequence of
sketches (each with `h + r ≤ n`) of which at least one has `r > 0`,
`get_outer_tau()` is the maximum of `total_weight_r / r` over the merged
inputs with `r > 0`: it is the value of one of them and no other is larger.
As every prefix of a sequence is a sequence, the pair keeps that ratio after
each single merge, whichever branch it takes. -/
theorem C2_outer_tau_is_max_input_tau (ops : gadget_ops T) (max_k : Nat)
    (sketches : List (var_opt_sketch T))
    (hwf : ∀ s ∈ sketches, s.h_ + s.r_ ≤ s.n_)
    (hex : ∃ s ∈ sketches, 0 < s.r_) :
    (∃ s ∈ sketches, 0 < s.r_ ∧
      (merge_all ops (var_opt_union.new max_k) sketches).get_outer_tau
        = s.total_wt_r_ / (s.r_ : ℚ)) ∧
    ∀ s ∈ sketches, 0 < s.r_ →
      s.total_wt_r_ / (s.r_ : ℚ)
        ≤ (merge_all ops (var_opt_union.new max_k) sketches).get_outer_tau := by
  have h0 : tau_pair_tracks (var_opt_union.new max_k : var_opt_union T) [] :=
    Or.inl ⟨rfl, by simp⟩
  have h := tau_pair_tracks_merge_all ops sketches _ [] hwf h0
  rw [List.nil_append] at h
  rcases h with ⟨_, hall⟩ | ⟨hd, hm, hmax⟩
  · obtain ⟨s, hs, hr⟩ := hex
    have := hall s hs
    omega
  · have hd0 : (merge_all ops (var_opt_union.new max_k) sketches).outer_tau_denom_ ≠ 0 := by
      omega
    simp only [var_opt_union.get_outer_tau, hd0, if_false]
    exact ⟨hm, hmax⟩

/-- Witness of C2 on the inputs `exact_ab`, `est_p`, `est_q`. -/
theorem C2_outer_tau_is_max_input_tau_witness :
    (∀ s ∈ [exact_ab, est_p, est_q], s.h_ + s.r_ ≤ s.n_) ∧
    (∃ s ∈ [exact_ab, est_p, est_q], 0 < s.r_) ∧
    (∃ s ∈ [exact_ab, est_p, est_q], 0 < s.r_ ∧
      (merge_all reference_ops (var_opt_union.new 10) [exact_ab, est_p, est_q]).get_outer_tau
        = s.total_wt_r_ / (s.r_ : ℚ)) ∧
    ∀ s ∈ [exact_ab, est_p, est_q], 0 < s.r_ →
      s.total_wt_r_ / (s.r_ : ℚ)
        ≤ (merge_all reference_ops (var_opt_union.new 10)
            [exact_ab, est_p, est_q]).get_outer_tau :=
  ⟨by simp [exact_ab, est_p, est_q], ⟨est_p, by simp, by simp [est_p]⟩,
   C2_outer_tau_is_max_input_tau reference_ops 10 [exact_ab, est_p, est_q]
     (by simp [exact_ab, est_p, est_q]) ⟨est_p, by simp, by simp [est_p]⟩⟩

/-- C3. No-eviction exactness: when every merged input is exact (`r == 0`,
`h` stored items, `h + r ≤ n`) and the inputs together hold at most `max_k`
items, `get_result()` on the fresh union that merged them returns a sketch with
`r == 0`, `h` the total item count, `n` the total `n`, whose H region lists
exactly the input items with their original weights, in merge order. The total
`n` is the 64-bit sum of `merge_into`: it is the sum of the inputs' `n` as long
as that sum is below `2 ^ 64`, which it is when every exact input has `n = h`.
The gadget's `update` is assumed to append to H while the gadget is below
capacity. -/
theorem C3_exact_inputs_below_capacity_stay_exact (ops : gadget_ops T)
    (hup : appends_below_capacity ops) (checked : Bool) (max_k fuel : Nat)
    (sketches : List (var_opt_sketch T))
    (hexact : ∀ s ∈ sketches, s.r_ = 0 ∧ s.h_ + s.r_ ≤ s.n_ ∧ s.h_samples.length = s.h_)
    (hfit : (sketches.map fun s => s.h_).sum ≤ max_k) :
    ∃ sk, get_result ops checked fuel (merge_all ops (var_opt_union.new max_k) sketches)
        = .ok sk ∧
      sk.r_ = 0 ∧
      sk.h_ = (sketches.map fun s => s.h_).sum ∧
      sk.n_ = (sketches.map fun s => s.n_).sum % 2 ^ 64 ∧
      ((sketches.map fun s => s.n_).sum < 2 ^ 64 →
        sk.n_ = (sketches.map fun s => s.n_).sum) ∧
      sk.h_samples = (sketches.map fun s => s.h_samples).flatten := by
  have hn : (merge_all ops (var_opt_union.new max_k) sketches).n_
      = (sketches.map fun s => s.n_).sum % 2 ^ 64 := by
    rw [merge_all_n ops sketches _ (by simp [var_opt_union.new])]
    simp [var_opt_union.new]
  have h0 : holds_exactly (var_opt_union.new max_k : var_opt_union T) max_k [] := by
    simp [holds_exactly, var_opt_union.new, var_opt_sketch.empty, var_opt_sketch.h_samples]
  have h := holds_exactly_merge_all ops hup max_k sketches _ [] hexact (by simpa using hfit) h0
  rw [List.nil_append] at h
  obtain ⟨g1, _, g3, g4, g5⟩ := h
  refine ⟨(merge_all ops (var_opt_union.new max_k) sketches).gadget_.copy true
    (merge_all ops (var_opt_union.new max_k) sketches).n_, ?_, ?_, ?_, ?_, ?_, ?_⟩
  · simp [get_result, simple_gadget_coercer, g3, assert_then]
  · simpa [var_opt_sketch.copy] using g1
  · simpa [var_opt_sketch.copy] using g4
  · simpa [var_opt_sketch.copy] using hn
  · intro hlt
    rw [← Nat.mod_eq_of_lt hlt]
    simpa [var_opt_sketch.copy] using hn
  · rw [h_samples_copy, g5]

/-- Witness of C3: the scenario with capacity 10, A = {a: 10, b: 1} and
B = {c: 7, d: 2}. -/
theorem C3_exact_inputs_below_capacity_stay_exact_witness :
    ∃ sk, get_result reference_ops true 0
        (merge_all reference_ops (var_opt_union.new 10) [exact_ab, exact_cd]) = .ok sk ∧
      sk.r_ = 0 ∧ sk.h_ = 4 ∧ sk.n_ = 4 ∧
      sk.h_samples = [("a", 10), ("b", 1), ("c", 7), ("d", 2)] := by
  have h := C3_exact_inputs_below_capacity_stay_exact reference_ops
    reference_ops_appends_below_capacity true 10 0 [exact_ab, exact_cd]
    (by simp [exact_ab, exact_cd, var_opt_sketch.h_samples, range_two])
    (by simp [exact_ab, exact_cd])
  simpa [exact_ab, exact_cd, var_opt_sketch.h_samples, range_two] using h

/-- C4. The sanity check of the pseudo-exact coercion fails in a state reached
by `merge_into` and `reset`: after `merge_into(est_uv)`, `reset()`,
`merge_into(est_xy)` on a union of capacity 10 the four conditions hold, the
marked H items weigh 2 in total while `outer_tau_numer` still is 4, and
`get_result()` stops at the assertion of line 300. -/
theorem C4_sanity_check_fails_after_reset :
    merge_into reference_ops
        (merge_into reference_ops (var_opt_union.new 10) est_uv).reset est_xy
      = union_uv_reset_xy ∧
    four_conditions union_uv_reset_xy ∧
    marked_h_weight union_uv_reset_xy.gadget_ = 2 ∧
    union_uv_reset_xy.outer_tau_numer_ = 4 ∧
    get_result reference_ops true 0 union_uv_reset_xy = .error (.assertion 300) := by
  refine ⟨merge_reset_merge_xy, ?_, ?_, rfl, get_result_uv_reset_xy _ _⟩
  · refine ⟨rfl, by decide, rfl, ?_⟩
    intro i _ _ t ht
    simp [union_uv_reset_xy, var_opt_sketch.get_tau] at ht
  · simp [marked_h_weight, union_uv_reset_xy, range_two]
    norm_num

/-- C5. The coerced result can hold an H item lighter than its `tau`: after
merging `exact_ab` and `est_p` into a union of capacity 10 the four conditions
hold and `get_result()` returns, by the pseudo-exact coercion, a sketch with
`tau = 2` whose H region still holds `b` with weight 1. -/
theorem C5_coerced_result_keeps_h_item_below_tau :
    merge_all reference_ops (var_opt_union.new 10) [exact_ab, est_p] = union_abp ∧
    four_conditions union_abp ∧
    get_result reference_ops true 0 union_abp = .ok result_abp ∧
    result_abp.get_tau = some 2 ∧
    ("b", (1 : ℚ)) ∈ result_abp.h_samples ∧ (1 : ℚ) < 2 := by
  refine ⟨merge_all_abp, ?_, get_result_abp _ _ _, ?_, ?_, by norm_num⟩
  · refine ⟨rfl, by decide, rfl, ?_⟩
    intro i _ _ t ht
    simp [union_abp, var_opt_sketch.get_tau] at ht
  · simp [result_abp, var_opt_sketch.get_tau]
  · simp [result_abp, var_opt_sketch.h_samples, range_two]

/-- C6. Pseudo-exact consistency: when `mark_moving_gadget_coercer` runs on a
gadget with `r == 0` whose counter `num_marks_in_h` is the number of marked H
slots, it returns a sketch unless assertions are compiled in and the
transferred weight misses `outer_tau_numer`, and every sketch it returns has
`r_new == num_marks_in_h_old`, `h_new == h_old - num_marks_in_h_old`,
`k_new == h_new + r_new`, `num_marks_in_h_new == 0`, `n_new` the union's `n`,
and `total_weight_r_new == total_weight_r_old + transferred_weight`, the
transferred weight being the sum of the weights of the marked H items. -/
theorem C6_coercion_postconditions (checked : Bool) (u : var_opt_union T)
    (sk : var_opt_sketch T) (hr : u.gadget_.r_ = 0)
    (hmarks : u.gadget_.num_marks_in_h_ = marked_h_count u.gadget_) :
    ((∃ sk1, mark_moving_gadget_coercer checked u sk = .ok sk1) ↔
      (checked = false ∨
        |marked_h_weight u.gadget_ - u.outer_tau_numer_| < 1 / 10000000000)) ∧
    ∀ sk1, mark_moving_gadget_coercer checked u sk = .ok sk1 →
      sk1.r_ = u.gadget_.num_marks_in_h_ ∧
      sk1.h_ = u.gadget_.h_ - u.gadget_.num_marks_in_h_ ∧
      sk1.k_ = sk1.h_ + sk1.r_ ∧
      sk1.num_marks_in_h_ = 0 ∧
      sk1.n_ = u.n_ ∧
      sk1.total_wt_r_ = u.gadget_.total_wt_r_ + marked_h_weight u.gadget_ := by
  obtain ⟨h1, h2, h3, h4⟩ := coercer_loops_exact u.gadget_ hr
  constructor
  · unfold mark_moving_gadget_coercer
    simp only [h1, h2, h3, hr]
    have hk : u.gadget_.h_ - marked_h_count u.gadget_ + marked_h_count u.gadget_
        = u.gadget_.h_ + 0 := by omega
    simp only [hk, decide_True, assert_then_true]
    unfold assert_then
    cases checked
    · simp
    · by_cases hs : |marked_h_weight u.gadget_ - u.outer_tau_numer_| < 1 / 10000000000
      · simp only [hs, decide_True, Bool.not_true, Bool.and_false, Bool.false_eq_true,
          if_false, or_true, iff_true]
        exact ⟨_, rfl⟩
      · simp only [hs, decide_False, Bool.not_false, Bool.and_self, if_true, or_false]
        constructor
        · rintro ⟨sk1, h⟩
          cases h
        · intro h
          cases h
  · intro sk1 hok
    rw [coercer_result checked u sk sk1 hok]
    simp only [h1, h2, h3, hr, hmarks]
    refine ⟨trivial, trivial, by omega, trivial, trivial, trivial⟩

/-- Witness of C6 on the union that merged `exact_ab` and `est_p`. -/
theorem C6_coercion_postconditions_witness :
    union_abp.gadget_.r_ = 0 ∧
    union_abp.gadget_.num_marks_in_h_ = marked_h_count union_abp.gadget_ ∧
    ∃ sk1, mark_moving_gadget_coercer true union_abp (union_abp.gadget_.copy false 5)
        = .ok sk1 ∧
      sk1.r_ = 1 ∧ sk1.h_ = 2 ∧ sk1.k_ = 3 ∧ sk1.num_marks_in_h_ = 0 ∧ sk1.n_ = 5 ∧
      sk1.total_wt_r_ = 2 := by
  have hr : union_abp.gadget_.r_ = 0 := rfl
  have hm : union_abp.gadget_.num_marks_in_h_ = marked_h_count union_abp.gadget_ := by
    simp [marked_h_count, union_abp, range_three]
  have hw : marked_h_weight union_abp.gadget_ = 2 := by
    simp [marked_h_weight, union_abp, range_three]
  have h := C6_coercion_postconditions true union_abp (union_abp.gadget_.copy false 5) hr hm
  obtain ⟨sk1, hok⟩ := h.1.2 (Or.inr (by rw [hw]; norm_num [union_abp]))
  refine ⟨hr, hm, sk1, hok, ?_⟩
  have h2 := h.2 sk1 hok
  rw [hw] at h2
  obtain ⟨a, b, c, d, e, f⟩ := h2
  refine ⟨a, b, ?_, d, e, ?_⟩
  · rw [c, a, b]; rfl
  · rw [f]; norm_num [union_abp]

/-- C7. Fast path: when the gadget has `num_marks_in_h == 0`, `get_result()`
returns the gadget itself (same k, h, r, total_weight_r, items, weights) with
the marks stripped and `n` replaced by the union's running total; the result
depends neither on the gadget operations nor on the fuel, so neither the
coercion nor `decrease_k_by_1` takes part. -/
theorem C7_fast_path_returns_gadget (ops : gadget_ops T) (checked : Bool) (fuel : Nat)
    (u : var_opt_union T) (hm : u.gadget_.num_marks_in_h_ = 0) :
    get_result ops checked fuel u
      = .ok { u.gadget_ with n_ := u.n_, marks_ := [], num_marks_in_h_ := 0 } := by
  simp [get_result, simple_gadget_coercer, hm, assert_then, var_opt_sketch.copy]

/-- Witness of C7 on the union that merged `exact_ab` and `exact_cd`. -/
theorem C7_fast_path_returns_gadget_witness :
    union_abcd.gadget_.num_marks_in_h_ = 0 ∧
    get_result reference_ops true 0 union_abcd
      = .ok { k_ := 10, h_ := 4, r_ := 0, n_ := 4, total_wt_r_ := 0, curr_items_alloc_ := 4,
              data_ := [some "a", some "b", some "c", some "d"], weights_ := [10, 1, 7, 2],
              marks_ := [], num_marks_in_h_ := 0 } :=
  ⟨rfl, C7_fast_path_returns_gadget reference_ops true 0 union_abcd rfl⟩

/-- C8. Selection of the recombination strategy: when the four conditions
hold on the gadget, `detect_and_handle_subcase_of_pseudo_exact` applies the
coercion to the sketch passed in and answers `true` with its result; otherwise
it answers `false` and leaves that sketch unchanged. It answers `true` with a
sketch exactly when the four conditions hold and the coercion returned that
sketch. With marks present and the four conditions not all met, `get_result()`
is the k-decrease fallback run on the copy of the gadget. -/
theorem C8_pseudo_exact_selection (ops : gadget_ops T) (checked : Bool) (fuel : Nat)
    (u : var_opt_union T) (sk : var_opt_sketch T) :
    (four_conditions u →
      detect_and_handle_subcase_of_pseudo_exact checked u sk =
        match mark_moving_gadget_coercer checked u sk with
        | .ok sk1 => .ok (true, sk1)
        | .error e => .error e) ∧
    (¬ four_conditions u →
      detect_and_handle_subcase_of_pseudo_exact checked u sk = .ok (false, sk)) ∧
    (∀ sk1, detect_and_handle_subcase_of_pseudo_exact checked u sk = .ok (true, sk1) ↔
      (four_conditions u ∧ mark_moving_gadget_coercer checked u sk = .ok sk1)) ∧
    (0 < u.gadget_.num_marks_in_h_ → ¬ four_conditions u →
      get_result ops checked fuel u =
        migrate_marked_items_by_decreasing_k ops checked fuel
          (u.gadget_.copy false u.n_)) := by
  refine ⟨detect_of_four_conditions checked u sk, detect_of_not_four_conditions checked u sk,
    ?_, ?_⟩
  · intro sk1
    constructor
    · intro h
      by_cases hf : four_conditions u
      · refine ⟨hf, ?_⟩
        rcases detect_cases checked u sk sk1 true h with ⟨hb, _⟩ | ⟨_, hc⟩
        · cases hb
        · exact hc
      · rw [detect_of_not_four_conditions checked u sk hf] at h
        cases h
    · rintro ⟨hf, hc⟩
      rw [detect_of_four_conditions checked u sk hf, hc]
  · intro hpos hf
    have hm : ¬ u.gadget_.num_marks_in_h_ = 0 := by omega
    unfold get_result
    rw [if_neg hm]
    simp only [detect_of_not_four_conditions checked u _ hf, Bool.not_false, if_true]

/-- C9. The fallback is reached with `k < 2` in a state built by `merge_into`
and `reset`: after `merge_into(est_uv)`, `reset()`, `merge_into(est_q)` on a
union of capacity 10 the gadget holds one marked H item, the pseudo-exact test
fails (`num_marks_in_h = 1`, `outer_tau_denom = 2`), the fallback shrinks `k`
to `h = 1` and `get_result()` stops at the assertion `k >= 2` of line 347. -/
theorem C9_fallback_reached_with_k_below_two :
    merge_into reference_ops
        (merge_into reference_ops (var_opt_union.new 10) est_uv).reset est_q
      = union_uv_reset_q ∧
    0 < union_uv_reset_q.gadget_.num_marks_in_h_ ∧
    ¬ four_conditions union_uv_reset_q ∧
    union_uv_reset_q.gadget_.h_ = 1 ∧
    get_result reference_ops true 1 union_uv_reset_q = .error (.assertion 347) := by
  refine ⟨merge_reset_merge_q, by decide, ?_, rfl, get_result_uv_reset_q _ _⟩
  rintro ⟨_, _, h3, _⟩
  revert h3
  decide

theorem merge_into_of_n_zero (ops : gadget_ops T) (u : var_opt_union T)
    (s : var_opt_sketch T) (hn : s.n_ = 0) : merge_into ops u s = u := by
  simp [merge_into, hn]

theorem merge_all_of_n_zero (ops : gadget_ops T) (sketches : List (var_opt_sketch T))
    (hall : ∀ s ∈ sketches, s.n_ = 0) (u : var_opt_union T) :
    merge_all ops u sketches = u := by
  induction sketches with
  | nil => rfl
  | cons s rest ih =>
    have hs := merge_into_of_n_zero ops u s (hall s (by simp))
    have := ih (fun x hx => hall x (by simp [hx]))
    simpa [merge_all, hs] using this

theorem merge_uv :
    merge_into reference_ops (var_opt_union.new 10) est_uv = union_uv := by
  simp [merge_into, est_uv, union_uv, var_opt_union.new, var_opt_sketch.empty, feed_gadget,
    var_opt_sketch.h_samples, var_opt_sketch.r_samples, reference_ops, warmup_update,
    write_slot, range_two, var_opt_sketch.get_tau, var_opt_union.get_outer_tau, dbl_gt, dbl_eq]
  norm_num

/-- C12. Empty-input no-op: `merge_into` of a sketch with `n == 0` returns the
union unchanged in all its fields (total `n`, `outer_tau_numer`,
`outer_tau_denom`, `max_k`, gadget), so does any sequence of such merges; a
fresh union that merged only empty sketches materializes the empty sketch,
with `n = 0`, `h = 0`, `r = 0`. -/
theorem C12_empty_input_is_noop (ops : gadget_ops T) (checked : Bool) (fuel max_k : Nat)
    (u : var_opt_union T) (sketches : List (var_opt_sketch T))
    (hall : ∀ s ∈ sketches, s.n_ = 0) :
    (∀ s ∈ sketches, merge_into ops u s = u) ∧
    merge_all ops u sketches = u ∧
    ∃ sk, get_result ops checked fuel (merge_all ops (var_opt_union.new max_k) sketches)
        = .ok sk ∧ sk.n_ = 0 ∧ sk.h_ = 0 ∧ sk.r_ = 0 := by
  refine ⟨fun s hs => merge_into_of_n_zero ops u s (hall s hs),
    merge_all_of_n_zero ops sketches hall u, var_opt_sketch.empty max_k, ?_, rfl, rfl, rfl⟩
  rw [merge_all_of_n_zero ops sketches hall]
  simp [get_result, simple_gadget_coercer, assert_then, var_opt_union.new,
    var_opt_sketch.empty, var_opt_sketch.copy]

/-- Witness of C12: two empty sketches of capacities 5 and 7 merged into
`union_abp` and into a fresh union of capacity 10. -/
theorem C12_empty_input_is_noop_witness :
    (∀ s ∈ [(var_opt_sketch.empty 5 : var_opt_sketch String), var_opt_sketch.empty 7],
      s.n_ = 0) ∧
    (∀ s ∈ [(var_opt_sketch.empty 5 : var_opt_sketch String), var_opt_sketch.empty 7],
      merge_into reference_ops union_abp s = union_abp) ∧
    merge_all reference_ops union_abp
      [(var_opt_sketch.empty 5 : var_opt_sketch String), var_opt_sketch.empty 7] = union_abp ∧
    ∃ sk, get_result reference_ops true 0
        (merge_all reference_ops (var_opt_union.new 10)
          [(var_opt_sketch.empty 5 : var_opt_sketch String), var_opt_sketch.empty 7])
        = .ok sk ∧ sk.n_ = 0 ∧ sk.h_ = 0 ∧ sk.r_ = 0 :=
  ⟨by simp [var_opt_sketch.empty],
   C12_empty_input_is_noop reference_ops true 0 10 union_abp
     [(var_opt_sketch.empty 5 : var_opt_sketch String), var_opt_sketch.empty 7]
     (by simp [var_opt_sketch.empty])⟩

/-- C13. Effect of reset: after `reset()` the gadget is the empty sketch of
the gadget's capacity - no H or R samples, no marks - which is `max_k` whenever
the gadget had capacity `max_k` before; `max_k`, the running total `n`,
`outer_tau_numer` and `outer_tau_denom` are unchanged, and so is
`get_outer_tau()`. -/
theorem C13_reset_clears_gadget_only (u : var_opt_union T) :
    u.reset.gadget_ = var_opt_sketch.empty u.gadget_.k_ ∧
    u.reset.gadget_.h_ = 0 ∧ u.reset.gadget_.r_ = 0 ∧
    u.reset.gadget_.num_marks_in_h_ = 0 ∧
    u.reset.gadget_.h_samples = [] ∧ u.reset.gadget_.r_samples = [] ∧
    (u.gadget_.k_ = u.max_k_ → u.reset.gadget_.k_ = u.reset.max_k_) ∧
    u.reset.max_k_ = u.max_k_ ∧
    u.reset.n_ = u.n_ ∧
    u.reset.outer_tau_numer_ = u.outer_tau_numer_ ∧
    u.reset.outer_tau_denom_ = u.outer_tau_denom_ ∧
    u.reset.get_outer_tau = u.get_outer_tau := by
  refine ⟨rfl, rfl, rfl, rfl, ?_, ?_, fun h => h, rfl, rfl, rfl, rfl, rfl⟩ <;>
    simp [var_opt_union.reset, var_opt_sketch.reset, var_opt_sketch.empty,
      var_opt_sketch.h_samples, var_opt_sketch.r_samples]

/-- C17. Condition 4 is implied by condition 1: on a gadget with `r == 0`
whose H weights are all positive, the test for an unmarked H item lighter than
the gadget's `tau` is false - for the undefined `tau` of the model as well as
for the value 0 - so the four conditions hold exactly when conditions 1 to 3
do, and `detect_and_handle_subcase_of_pseudo_exact` answers `true` exactly
when conditions 1 to 3 hold and the coercion returns. -/
theorem C17_condition_4_follows_from_condition_1 (checked : Bool) (u : var_opt_union T)
    (sk : var_opt_sketch T) (hr : u.gadget_.r_ = 0)
    (hpos : ∀ i, i < u.gadget_.h_ → 0 < u.gadget_.weights_.getD i 0) :
    there_exist_unmarked_h_items_lighter_than_target u u.gadget_.get_tau = false ∧
    there_exist_unmarked_h_items_lighter_than_target u (some 0) = false ∧
    (four_conditions u ↔
      (u.gadget_.r_ = 0 ∧ 0 < u.gadget_.num_marks_in_h_ ∧
        u.gadget_.num_marks_in_h_ = u.outer_tau_denom_)) ∧
    ∀ sk1, detect_and_handle_subcase_of_pseudo_exact checked u sk = .ok (true, sk1) ↔
      ((u.gadget_.r_ = 0 ∧ 0 < u.gadget_.num_marks_in_h_ ∧
          u.gadget_.num_marks_in_h_ = u.outer_tau_denom_) ∧
        mark_moving_gadget_coercer checked u sk = .ok sk1) := by
  have hc4 : condition_4 u := by
    intro i _ _ t ht
    simp [var_opt_sketch.get_tau, hr] at ht
  have hfour : four_conditions u ↔
      (u.gadget_.r_ = 0 ∧ 0 < u.gadget_.num_marks_in_h_ ∧
        u.gadget_.num_marks_in_h_ = u.outer_tau_denom_) :=
    ⟨fun ⟨a, b, c, _⟩ => ⟨a, b, c⟩, fun ⟨a, b, c⟩ => ⟨a, b, c, hc4⟩⟩
  refine ⟨(anti_condition4_false_iff u).2 hc4, ?_, hfour, ?_⟩
  · unfold there_exist_unmarked_h_items_lighter_than_target
    rw [Bool.eq_false_iff, ne_eq, List.any_eq_true]
    rintro ⟨i, hi, hp⟩
    rw [Bool.and_eq_true] at hp
    have hlt : u.gadget_.weights_.getD i 0 < 0 := by simpa [dbl_lt] using hp.1
    exact absurd (hpos i (List.mem_range.1 hi)) (not_lt.2 hlt.le)
  · intro sk1
    constructor
    · intro h
      by_cases hf : four_conditions u
      · refine ⟨hfour.1 hf, ?_⟩
        rcases detect_cases checked u sk sk1 true h with ⟨hb, _⟩ | ⟨_, hc⟩
        · cases hb
        · exact hc
      · rw [detect_of_not_four_conditions checked u sk hf] at h
        cases h
    · rintro ⟨h123, hc⟩
      rw [detect_of_four_conditions checked u sk (hfour.2 h123), hc]

/-- Witness of C17 on the union that merged `exact_ab` and `est_p`. -/
theorem C17_condition_4_follows_from_condition_1_witness :
    union_abp.gadget_.r_ = 0 ∧
    (∀ i, i < union_abp.gadget_.h_ → 0 < union_abp.gadget_.weights_.getD i 0) ∧
    there_exist_unmarked_h_items_lighter_than_target union_abp union_abp.gadget_.get_tau
      = false ∧
    detect_and_handle_subcase_of_pseudo_exact true union_abp (union_abp.gadget_.copy false 5)
      = .ok (true, result_abp) := by
  have hpos : ∀ i, i < union_abp.gadget_.h_ → 0 < union_abp.gadget_.weights_.getD i 0 := by
    intro i hi
    have hi3 : i < 3 := hi
    interval_cases i <;> simp [union_abp]
  have h := C17_condition_4_follows_from_condition_1 true union_abp
    (union_abp.gadget_.copy false 5) rfl hpos
  exact ⟨rfl, hpos, h.1, (h.2.2.2 result_abp).2 ⟨⟨rfl, by decide, rfl⟩, coercer_abp true _⟩⟩

/-- C18. Copy assignment does not copy the pair of the outer tau: after
`a = b`, `a.outer_tau_numer` holds `b.outer_tau_denom` and `a.outer_tau_denom`
keeps its old value, for every `a` and `b`. With `a` a fresh union of capacity
10 and `b` the union that merged `est_uv`, `a` ends with the pair (2, 0) where
`b` has (4, 2), and `a.get_outer_tau()` is 0 where `b.get_outer_tau()` is 2. -/
theorem C18_copy_assignment_mixes_the_tau_pair :
    (∀ a b : var_opt_union String,
      (a.copy_assign b).outer_tau_numer_ = (b.outer_tau_denom_ : ℚ) ∧
      (a.copy_assign b).outer_tau_denom_ = a.outer_tau_denom_ ∧
      (a.copy_assign b).n_ = b.n_ ∧ (a.copy_assign b).max_k_ = b.max_k_ ∧
      (a.copy_assign b).gadget_ = b.gadget_) ∧
    merge_into reference_ops (var_opt_union.new 10) est_uv = union_uv ∧
    ((var_opt_union.new 10).copy_assign union_uv).outer_tau_numer_ = 2 ∧
    ((var_opt_union.new 10).copy_assign union_uv).outer_tau_denom_ = 0 ∧
    union_uv.outer_tau_numer_ = 4 ∧ union_uv.outer_tau_denom_ = 2 ∧
    ((var_opt_union.new 10).copy_assign union_uv).get_outer_tau = 0 ∧
    union_uv.get_outer_tau = 2 := by
  refine ⟨fun a b => ⟨rfl, rfl, rfl, rfl, rfl⟩, merge_uv, ?_, rfl, rfl, rfl, ?_, ?_⟩
  · simp [var_opt_union.copy_assign, var_opt_union.copy, union_uv]
  · simp [var_opt_union.copy_assign, var_opt_union.copy, union_uv, var_opt_union.new,
      var_opt_union.get_outer_tau]
  · simp [union_uv, var_opt_union.get_outer_tau]
    norm_num

/-! ## The feeding loops -/

theorem filterMap_range_of_items {β : Type} (F : Nat → T → β) (d : Nat → Option T)
    (items : List T) :
    ∀ off : Nat, (∀ i, i < items.length → d (off + i) = items[i]?) →
      ((List.range' off items.length).filterMap fun i => (d i).map (F i))
        = (items.enumFrom off).map fun p => F p.1 p.2 := by
  induction items with
  | nil => intro off _; rfl
  | cons x xs ih =>
    intro off h
    have h0 : d off = some x := by simpa using h 0 (by simp)
    have hrest : ∀ i, i < xs.length → d (off + 1 + i) = xs[i]? := by
      intro i hi
      have := h (i + 1) (by simp; omega)
      rw [show off + 1 + i = off + (i + 1) by omega, this]
      simp
    have := ih (off + 1) hrest
    simp only [List.length_cons, List.range'_succ, List.filterMap_cons, h0, Option.map_some',
      List.enumFrom_cons, List.map_cons, this]

theorem h_samples_of_items (s : var_opt_sketch T) (items_h : List T)
    (hh : items_h.length = s.h_)
    (hH : ∀ i, i < s.h_ → s.data_.getD i none = items_h[i]?) :
    s.h_samples = items_h.enum.map fun p => (p.2, s.weights_.getD p.1 0) := by
  have := filterMap_range_of_items (fun i x => (x, s.weights_.getD i 0))
    (fun i => s.data_.getD i none) items_h 0
    (by intro i hi; simpa using hH i (by omega))
  unfold var_opt_sketch.h_samples
  rw [← hh, List.range_eq_range']
  exact this

theorem r_samples_of_items (s : var_opt_sketch T) (items_r : List T)
    (hr : items_r.length = s.r_)
    (hR : ∀ j, j < s.r_ → s.data_.getD (s.h_ + 1 + j) none = items_r[j]?) :
    s.r_samples = items_r.map fun y => (y, s.total_wt_r_ / (s.r_ : ℚ)) := by
  have := filterMap_range_of_items (fun _ y => (y, s.total_wt_r_ / (s.r_ : ℚ)))
    (fun j => s.data_.getD (s.h_ + 1 + j) none) items_r 0
    (by intro j hj; simpa using hR j (by omega))
  have hrange : List.range s.r_ = List.range' 0 items_r.length := by
    rw [hr, List.range_eq_range']
  have hsnd : (items_r.enumFrom 0).map (fun p => (p.2, s.total_wt_r_ / (s.r_ : ℚ)))
      = items_r.map fun y => (y, s.total_wt_r_ / (s.r_ : ℚ)) := by
    have h2 : (items_r.enumFrom 0).map (fun p => (p.2, s.total_wt_r_ / (s.r_ : ℚ)))
        = ((items_r.enum).map Prod.snd).map fun y => (y, s.total_wt_r_ / (s.r_ : ℚ)) := by
      rw [List.map_map]
      rfl
    rw [h2, List.enum_map_snd]
  unfold var_opt_sketch.r_samples
  rw [hrange, ← hsnd]
  exact this

theorem merge_into_gadget (ops : gadget_ops T) (u : var_opt_union T) (s : var_opt_sketch T)
    (hn : 0 < s.n_) : (merge_into ops u s).gadget_ = feed_gadget ops u.gadget_ s := by
  have h0 : ¬ s.n_ = 0 := by omega
  unfold merge_into
  simp only [h0, if_false]
  split_ifs <;> rfl

theorem feed_gadget_eq_fold (ops : gadget_ops T) (g : var_opt_sketch T)
    (s : var_opt_sketch T) (items_h items_r : List T)
    (hh : items_h.length = s.h_) (hr : items_r.length = s.r_)
    (hH : ∀ i, i < s.h_ → s.data_.getD i none = items_h[i]?)
    (hR : ∀ j, j < s.r_ → s.data_.getD (s.h_ + 1 + j) none = items_r[j]?) :
    feed_gadget ops g s
      = (feed_calls s items_h items_r).foldl (fun g c => ops.update g c.1 c.2.1 c.2.2) g := by
  unfold feed_gadget feed_calls
  rw [h_samples_of_items s items_h hh hH, r_samples_of_items s items_r hr hR]
  simp only [List.foldl_append, List.foldl_map]

theorem feed_calls_mixed_auv :
    feed_calls mixed_auv ["a"] ["u", "v"]
      = [("a", 10, false), ("u", 2, true), ("v", 2, true)] := by
  simp [feed_calls, mixed_auv, List.enum, List.enumFrom]
  norm_num

/-- C15. Merge feeding protocol: for a sketch with `n > 0` whose `h` H slots
hold the items `items_h` and whose `r` R slots hold the items `items_r`,
`merge_into` adds `sketch.n` to the total `n` (a 64-bit addition, exact while
the sum is below `2 ^ 64`), and the gadget it leaves is the
one obtained by the `h + r` calls of `update` listed in `feed_calls`, issued in
that order: each H item in index order with its stored weight and
`mark = false`, then each R item with weight `total_weight_r / r` and
`mark = true`. -/
theorem C15_merge_feeding_protocol (ops : gadget_ops T) (u : var_opt_union T)
    (s : var_opt_sketch T) (items_h items_r : List T) (hn : 0 < s.n_)
    (hh : items_h.length = s.h_) (hr : items_r.length = s.r_)
    (hH : ∀ i, i < s.h_ → s.data_.getD i none = items_h[i]?)
    (hR : ∀ j, j < s.r_ → s.data_.getD (s.h_ + 1 + j) none = items_r[j]?) :
    (merge_into ops u s).n_ = (u.n_ + s.n_) % 2 ^ 64 ∧
    (u.n_ + s.n_ < 2 ^ 64 → (merge_into ops u s).n_ = u.n_ + s.n_) ∧
    (merge_into ops u s).gadget_
      = (feed_calls s items_h items_r).foldl (fun g c => ops.update g c.1 c.2.1 c.2.2)
          u.gadget_ ∧
    (feed_calls s items_h items_r).length = s.h_ + s.r_ ∧
    (∀ i, i < s.h_ → ∃ x, items_h[i]? = some x ∧
      (feed_calls s items_h items_r)[i]? = some (x, s.weights_.getD i 0, false)) ∧
    (∀ j, j < s.r_ → ∃ y, items_r[j]? = some y ∧
      (feed_calls s items_h items_r)[s.h_ + j]?
        = some (y, s.total_wt_r_ / (s.r_ : ℚ), true)) := by
  refine ⟨merge_into_n ops u s hn,
    fun hlt => by rw [merge_into_n ops u s hn, Nat.mod_eq_of_lt hlt], ?_, ?_, ?_, ?_⟩
  · rw [merge_into_gadget ops u s hn, feed_gadget_eq_fold ops _ s items_h items_r hh hr hH hR]
  · simp [feed_calls, hh, hr]
  · intro i hi
    have hi2 : i < items_h.length := by omega
    refine ⟨items_h[i], List.getElem?_eq_getElem hi2, ?_⟩
    unfold feed_calls
    rw [List.getElem?_append_left (by simpa using hi2)]
    simp [List.getElem?_map, List.enum, List.getElem?_enumFrom, List.getElem?_eq_getElem hi2]
  · intro j hj
    have hj2 : j < items_r.length := by omega
    refine ⟨items_r[j], List.getElem?_eq_getElem hj2, ?_⟩
    unfold feed_calls
    rw [List.getElem?_append_right (by simp [hh])]
    simp [hh, List.getElem?_map, List.getElem?_eq_getElem hj2]

/-- Witness of C15: `mixed_auv`, with `a` in H and `u`, `v` in R, merged into
a fresh union of capacity 10. -/
theorem C15_merge_feeding_protocol_witness :
    (merge_into reference_ops (var_opt_union.new 10) mixed_auv).n_ = 6 ∧
    (merge_into reference_ops (var_opt_union.new 10) mixed_auv).gadget_
      = [("a", (10 : ℚ), false), ("u", 2, true), ("v", 2, true)].foldl
          (fun g c => reference_ops.update g c.1 c.2.1 c.2.2)
          (var_opt_sketch.empty 10) := by
  have h := C15_merge_feeding_protocol reference_ops (var_opt_union.new 10) mixed_auv
    ["a"] ["u", "v"] (by decide) rfl rfl
    (by intro i hi; have : i < 1 := hi; interval_cases i; rfl)
    (by intro j hj; have : j < 2 := hj; interval_cases j <;> rfl)
  rw [feed_calls_mixed_auv] at h
  exact ⟨h.2.1 (by norm_num [var_opt_union.new, mixed_auv]), h.2.2.1⟩

/-- C19. Weight conservation in merge: for a sketch with `n > 0` whose H and R
slots hold items and whose `total_weight_r` is 0 when it has no reservoir, the
weights of the calls of `update` that `merge_into` issues add up to the sum of
the sketch's H-region weights plus its `total_weight_r`, each of the `r`
reservoir items being fed with `total_weight_r / r`. -/
theorem C19_merge_conserves_weight (ops : gadget_ops T) (u : var_opt_union T)
    (s : var_opt_sketch T) (items_h items_r : List T) (hn : 0 < s.n_)
    (hh : items_h.length = s.h_) (hr : items_r.length = s.r_)
    (hH : ∀ i, i < s.h_ → s.data_.getD i none = items_h[i]?)
    (hR : ∀ j, j < s.r_ → s.data_.getD (s.h_ + 1 + j) none = items_r[j]?)
    (hw : s.r_ = 0 → s.total_wt_r_ = 0) :
    (merge_into ops u s).gadget_
      = (feed_calls s items_h items_r).foldl (fun g c => ops.update g c.1 c.2.1 c.2.2)
          u.gadget_ ∧
    ((feed_calls s items_h items_r).map fun c => c.2.1).sum
      = ((List.range s.h_).map fun i => s.weights_.getD i 0).sum + s.total_wt_r_ := by
  constructor
  · rw [merge_into_gadget ops u s hn, feed_gadget_eq_fold ops _ s items_h items_r hh hr hH hR]
  · unfold feed_calls
    rw [List.map_append, List.sum_append, List.map_map, List.map_map]
    have h1 : (items_h.enum.map
        ((fun c : T × ℚ × Bool => c.2.1) ∘ fun p => (p.2, s.weights_.getD p.1 0, false)))
        = (List.range s.h_).map fun i => s.weights_.getD i 0 := by
      rw [← hh, ← List.enum_map_fst, List.map_map]
      rfl
    have h2 : ((items_r.map
        ((fun c : T × ℚ × Bool => c.2.1) ∘ fun y => (y, s.total_wt_r_ / (s.r_ : ℚ), true))).sum)
        = s.total_wt_r_ := by
      have hconst : (items_r.map
          ((fun c : T × ℚ × Bool => c.2.1) ∘ fun y => (y, s.total_wt_r_ / (s.r_ : ℚ), true)))
          = List.replicate s.r_ (s.total_wt_r_ / (s.r_ : ℚ)) := by
        rw [← hr]
        exact List.eq_replicate_iff.2 ⟨by simp, by simp⟩
      rw [hconst, List.sum_replicate, nsmul_eq_mul]
      by_cases h0 : s.r_ = 0
      · rw [h0, hw h0]; simp
      · have : (s.r_ : ℚ) ≠ 0 := by exact_mod_cast h0
        field_simp
    rw [h1, h2]

/-- Witness of C19: `mixed_auv` feeds the weights 10, 2 and 2, the H weight 10
plus `total_weight_r = 4`. -/
theorem C19_merge_conserves_weight_witness :
    (([("a", (10 : ℚ), false), ("u", 2, true), ("v", 2, true)].map fun c => c.2.1).sum
      = ((List.range mixed_auv.h_).map fun i => mixed_auv.weights_.getD i 0).sum
        + mixed_auv.total_wt_r_) := by
  have h := C19_merge_conserves_weight reference_ops (var_opt_union.new 10) mixed_auv
    ["a"] ["u", "v"] (by decide) rfl rfl
    (by intro i hi; have : i < 1 := hi; interval_cases i; rfl)
    (by intro j hj; have : j < 2 := hj; interval_cases j <;> rfl)
    (by intro h0; exact absurd h0 (by decide))
  rw [feed_calls_mixed_auv] at h
  exact h.2

/-! ## Accumulation on ties -/

theorem merge_into_pair_cases (ops : gadget_ops T) (u : var_opt_union T)
    (s : var_opt_sketch T) (hwf : s.h_ + s.r_ ≤ s.n_) :
    ((merge_into ops u s).outer_tau_numer_ = u.outer_tau_numer_ ∧
      (merge_into ops u s).outer_tau_denom_ = u.outer_tau_denom_ ∧
      (s.r_ = 0 ∨ (0 < s.r_ ∧ 0 < u.outer_tau_denom_ ∧
        input_tau s < u.outer_tau_numer_ / (u.outer_tau_denom_ : ℚ)))) ∨
    (0 < s.r_ ∧ (merge_into ops u s).outer_tau_numer_ = s.total_wt_r_ ∧
      (merge_into ops u s).outer_tau_denom_ = s.r_ ∧
      (u.outer_tau_denom_ = 0 ∨ (0 < u.outer_tau_denom_ ∧
        u.outer_tau_numer_ / (u.outer_tau_denom_ : ℚ) < input_tau s))) ∨
    (0 < s.r_ ∧ 0 < u.outer_tau_denom_ ∧
      input_tau s = u.outer_tau_numer_ / (u.outer_tau_denom_ : ℚ) ∧
      (merge_into ops u s).outer_tau_numer_ = u.outer_tau_numer_ + s.total_wt_r_ ∧
      (merge_into ops u s).outer_tau_denom_ = u.outer_tau_denom_ + s.r_) := by
  unfold input_tau
  by_cases h0 : s.n_ = 0
  · have e : merge_into ops u s = u := by simp [merge_into, h0]
    rw [e]
    exact Or.inl ⟨rfl, rfl, Or.inl (by omega)⟩
  · by_cases hr : 0 < s.r_
    · have hr0 : s.r_ ≠ 0 := by omega
      by_cases hd : u.outer_tau_denom_ = 0
      · have e : merge_into ops u s =
            { u with n_ := (u.n_ + s.n_) % 2 ^ 64, gadget_ := feed_gadget ops u.gadget_ s,
                     outer_tau_numer_ := s.total_wt_r_, outer_tau_denom_ := s.r_ } := by
          unfold merge_into
          simp only [h0, if_false, hr, if_true, hd]
        rw [e]
        exact Or.inr (Or.inl ⟨hr, rfl, rfl, Or.inl hd⟩)
      · have hdpos : 0 < u.outer_tau_denom_ := by omega
        by_cases hgt : s.total_wt_r_ / (s.r_ : ℚ) > u.outer_tau_numer_ / (u.outer_tau_denom_ : ℚ)
        · have e : merge_into ops u s =
              { u with n_ := (u.n_ + s.n_) % 2 ^ 64, gadget_ := feed_gadget ops u.gadget_ s,
                       outer_tau_numer_ := s.total_wt_r_, outer_tau_denom_ := s.r_ } := by
            unfold merge_into
            simp only [h0, if_false, hr, if_true, hd, var_opt_sketch.get_tau, hr0, dbl_gt,
              var_opt_union.get_outer_tau, hgt, decide_True]
          rw [e]
          exact Or.inr (Or.inl ⟨hr, rfl, rfl, Or.inr ⟨hdpos, hgt⟩⟩)
        · by_cases heq : s.total_wt_r_ / (s.r_ : ℚ)
              = u.outer_tau_numer_ / (u.outer_tau_denom_ : ℚ)
          · have e : merge_into ops u s =
                { u with n_ := (u.n_ + s.n_) % 2 ^ 64, gadget_ := feed_gadget ops u.gadget_ s,
                         outer_tau_numer_ := u.outer_tau_numer_ + s.total_wt_r_,
                         outer_tau_denom_ := u.outer_tau_denom_ + s.r_ } := by
              unfold merge_into
              simp only [h0, if_false, hr, if_true, hd, var_opt_sketch.get_tau, hr0, dbl_gt,
                dbl_eq, var_opt_union.get_outer_tau, hgt, decide_False, Bool.false_eq_true]
              simp only [heq, decide_True, if_true]
            rw [e]
            exact Or.inr (Or.inr ⟨hr, hdpos, heq, rfl, rfl⟩)
          · have e : merge_into ops u s =
                { u with n_ := (u.n_ + s.n_) % 2 ^ 64, gadget_ := feed_gadget ops u.gadget_ s } := by
              unfold merge_into
              simp only [h0, if_false, hr, if_true, hd, var_opt_sketch.get_tau, hr0, dbl_gt,
                dbl_eq, var_opt_union.get_outer_tau, hgt, decide_False, Bool.false_eq_true,
                heq]
            rw [e]
            exact Or.inl ⟨rfl, rfl, Or.inr ⟨hr, hdpos,
              lt_of_le_of_ne (le_of_not_gt hgt) heq⟩⟩
    · have e : merge_into ops u s =
          { u with n_ := (u.n_ + s.n_) % 2 ^ 64, gadget_ := feed_gadget ops u.gadget_ s } := by
        unfold merge_into
        simp only [h0, if_false, hr]
      rw [e]
      exact Or.inl ⟨rfl, rfl, Or.inl (by omega)⟩

theorem tau_tier_append (seen : List (var_opt_sketch T)) (s : var_opt_sketch T) (t : ℚ) :
    tau_tier (seen ++ [s]) t
      = tau_tier seen t ++ (if 0 < s.r_ ∧ input_tau s = t then [s] else []) := by
  unfold tau_tier
  rw [List.filter_append]
  congr 1
  by_cases h : 0 < s.r_ ∧ input_tau s = t
  · simp [List.filter_cons, h]
  · simp [List.filter_cons, h]

theorem tau_tier_eq_nil (seen : List (var_opt_sketch T)) (t : ℚ)
    (h : ∀ x ∈ seen, 0 < x.r_ → input_tau x ≠ t) : tau_tier seen t = [] := by
  unfold tau_tier
  rw [List.filter_eq_nil_iff]
  intro x hx hp
  have hp2 : 0 < x.r_ ∧ input_tau x = t := by simpa using hp
  exact h x hx hp2.1 hp2.2

theorem pair_sums_tier_step (ops : gadget_ops T) (u : var_opt_union T)
    (seen : List (var_opt_sketch T)) (s : var_opt_sketch T)
    (hwf : s.h_ + s.r_ ≤ s.n_) (htrack : tau_pair_tracks u seen)
    (hinv : pair_sums_tier u seen) :
    pair_sums_tier (merge_into ops u s) (seen ++ [s]) := by
  obtain ⟨hden, hnum⟩ := hinv
  unfold pair_sums_tier
  rcases merge_into_pair_cases ops u s hwf with
    ⟨e1, e2, hcase⟩ | ⟨hr, e1, e2, hcase⟩ | ⟨hr, hd, heq, e1, e2⟩
  · rw [e1, e2, tau_tier_append]
    have hnot : ¬ (0 < s.r_ ∧ input_tau s = u.outer_tau_numer_ / (u.outer_tau_denom_ : ℚ)) := by
      rintro ⟨hr, he⟩
      rcases hcase with h0 | ⟨_, _, hlt⟩
      · omega
      · exact absurd he (ne_of_lt hlt)
    rw [if_neg hnot, List.append_nil]
    exact ⟨hden, hnum⟩
  · have hnil : tau_tier seen (input_tau s) = [] := by
      apply tau_tier_eq_nil
      intro x hx hxr
      rcases htrack with ⟨_, hall⟩ | ⟨_, _, hmax⟩
      · have := hall x hx; omega
      · rcases hcase with h0 | ⟨_, hlt⟩
        · omega
        · exact ne_of_lt (lt_of_le_of_lt (hmax x hx hxr) hlt)
    rw [e1, e2]
    have ht : s.total_wt_r_ / ((s.r_ : Nat) : ℚ) = input_tau s := rfl
    rw [ht, tau_tier_append, hnil, if_pos ⟨hr, rfl⟩]
    simp
  · have hmed := mediant_of_equal u.outer_tau_numer_ s.total_wt_r_
      u.outer_tau_denom_ s.r_ hd hr heq
    rw [e1, e2, hmed, tau_tier_append, if_pos ⟨hr, heq⟩]
    simp only [List.map_append, List.sum_append, List.map_cons, List.map_nil, List.sum_cons,
      List.sum_nil, add_zero]
    exact ⟨by rw [← hden], by rw [← hnum]⟩

theorem pair_sums_tier_merge_all (ops : gadget_ops T) (rest : List (var_opt_sketch T)) :
    ∀ (u : var_opt_union T) (seen : List (var_opt_sketch T)),
      (∀ s ∈ rest, s.h_ + s.r_ ≤ s.n_) → tau_pair_tracks u seen → pair_sums_tier u seen →
      tau_pair_tracks (merge_all ops u rest) (seen ++ rest) ∧
      pair_sums_tier (merge_all ops u rest) (seen ++ rest) := by
  induction rest with
  | nil => intro u seen _ h1 h2; simpa [merge_all] using And.intro h1 h2
  | cons s rest ih =>
    intro u seen hwf h1 h2
    have hs := hwf s (by simp)
    have := ih (merge_into ops u s) (seen ++ [s]) (fun x hx => hwf x (by simp [hx]))
      (tau_pair_tracks_step ops u seen s hs h1) (pair_sums_tier_step ops u seen s hs h1 h2)
    simpa [merge_all] using this

theorem top_tau_inputs_eq_tier (u : var_opt_union T) (sketches : List (var_opt_sketch T))
    (htrack : tau_pair_tracks u sketches) :
    top_tau_inputs sketches
      = tau_tier sketches (u.outer_tau_numer_ / (u.outer_tau_denom_ : ℚ)) := by
  unfold top_tau_inputs tau_tier
  apply List.filter_congr
  intro s hs
  rcases htrack with ⟨_, hall⟩ | ⟨_, ⟨m, hm, hmr, hmeq⟩, hmax⟩
  · have := hall s hs
    have h0 : ¬ 0 < s.r_ := by omega
    simp [h0]
  · by_cases hr : 0 < s.r_
    · have hiff : (∀ x ∈ sketches, 0 < x.r_ → input_tau x ≤ input_tau s) ↔
          input_tau s = u.outer_tau_numer_ / (u.outer_tau_denom_ : ℚ) := by
        constructor
        · intro h
          apply le_antisymm (hmax s hs hr)
          rw [hmeq]
          exact h m hm hmr
        · intro h x hx hxr
          rw [h]
          exact hmax x hx hxr
      simp only [hr, true_and]
      by_cases ht : input_tau s = u.outer_tau_numer_ / (u.outer_tau_denom_ : ℚ)
      · rw [decide_eq_true ht]
        exact decide_eq_true (hiff.2 ht)
      · rw [decide_eq_false ht]
        exact decide_eq_false (fun h => ht (hiff.1 h))
    · simp [hr]

/-- C14. Tie accumulation of the tau pair: after a fresh union has merged any
sequence of sketches (each with `h + r ≤ n`), `outer_tau_denom` is the sum of
`r` and `outer_tau_numer` the sum of `total_weight_r` over exactly those merged
estimation-mode inputs whose `tau` is the maximum `tau` of all merged
estimation-mode inputs; without any estimation-mode input both are 0. -/
theorem C14_pair_sums_top_tau_inputs (ops : gadget_ops T) (max_k : Nat)
    (sketches : List (var_opt_sketch T))
    (hwf : ∀ s ∈ sketches, s.h_ + s.r_ ≤ s.n_) :
    (merge_all ops (var_opt_union.new max_k) sketches).outer_tau_denom_
      = ((top_tau_inputs sketches).map fun s => s.r_).sum ∧
    (merge_all ops (var_opt_union.new max_k) sketches).outer_tau_numer_
      = ((top_tau_inputs sketches).map fun s => s.total_wt_r_).sum ∧
    ((∀ s ∈ sketches, s.r_ = 0) →
      (merge_all ops (var_opt_union.new max_k) sketches).outer_tau_denom_ = 0 ∧
      (merge_all ops (var_opt_union.new max_k) sketches).outer_tau_numer_ = 0) := by
  have h0 : tau_pair_tracks (var_opt_union.new max_k : var_opt_union T) [] :=
    Or.inl ⟨rfl, by simp⟩
  have h1 : pair_sums_tier (var_opt_union.new max_k : var_opt_union T) [] := by
    simp [pair_sums_tier, tau_tier, var_opt_union.new]
  obtain ⟨htrack, hden, hnum⟩ := pair_sums_tier_merge_all ops sketches _ [] hwf h0 h1
  rw [List.nil_append] at htrack hden hnum
  rw [top_tau_inputs_eq_tier _ sketches htrack]
  refine ⟨hden, hnum, ?_⟩
  intro hall
  have hnil : ∀ t, tau_tier sketches t = [] := by
    intro t
    apply tau_tier_eq_nil
    intro x hx hxr
    have := hall x hx
    omega
  rw [hnil] at hden hnum
  exact ⟨by simpa using hden, by simpa using hnum⟩

theorem top_tau_inputs_p_uv_q :
    top_tau_inputs [est_p, est_uv, est_q] = [est_p, est_uv] := by
  have hp : input_tau est_p = 2 := by norm_num [input_tau, est_p]
  have huv : input_tau est_uv = 2 := by norm_num [input_tau, est_uv]
  have hq : input_tau est_q = 1 := by norm_num [input_tau, est_q]
  have rp : est_p.r_ = 1 := rfl
  have ruv : est_uv.r_ = 2 := rfl
  have rq : est_q.r_ = 1 := rfl
  simp [top_tau_inputs, List.filter_cons, hp, huv, hq, rp, ruv, rq]

/-- Witness of C14: after `est_p` (tau 2), `est_uv` (tau 2) and `est_q`
(tau 1) the pair is (6, 3), the sums over `est_p` and `est_uv`. -/
theorem C14_pair_sums_top_tau_inputs_witness :
    (∀ s ∈ [est_p, est_uv, est_q], s.h_ + s.r_ ≤ s.n_) ∧
    (merge_all reference_ops (var_opt_union.new 10) [est_p, est_uv, est_q]).outer_tau_denom_
      = 3 ∧
    (merge_all reference_ops (var_opt_union.new 10) [est_p, est_uv, est_q]).outer_tau_numer_
      = 6 := by
  have hwf : ∀ s ∈ [est_p, est_uv, est_q], s.h_ + s.r_ ≤ s.n_ := by
    simp [est_p, est_uv, est_q]
  have h := C14_pair_sums_top_tau_inputs reference_ops 10 [est_p, est_uv, est_q] hwf
  rw [top_tau_inputs_p_uv_q] at h
  refine ⟨hwf, h.1, ?_⟩
  rw [h.2.1]
  norm_num [est_p, est_uv]

/-! ## Layout of the coerced buffers -/

theorem set_first_free {α : Type} (A B : List α) (n : Nat) (d v : α) :
    (A ++ List.replicate (n + 1) d ++ B).set A.length v
      = (A ++ [v]) ++ List.replicate n d ++ B := by
  rw [List.append_assoc, List.set_append_right _ _ (le_refl _), Nat.sub_self,
    List.replicate_succ, List.cons_append, List.set_cons_zero]
  simp

theorem set_last_free {α : Type} (A B : List α) (n : Nat) (d v : α) :
    (A ++ List.replicate (n + 1) d ++ B).set (A.length + n) v
      = A ++ List.replicate n d ++ (v :: B) := by
  rw [List.append_assoc, List.set_append_right _ _ (by omega), Nat.add_sub_cancel_left,
    List.replicate_succ', List.append_assoc,
    List.set_append_right _ _ (by simp), List.length_replicate, Nat.sub_self,
    List.singleton_append, List.set_cons_zero]
  simp

theorem coercer_h_loop_layout (g : var_opt_sketch T) (l : List Nat) :
    ∀ (st : coercer_state T) (A B : List (Option T)) (Aw Bw : List ℚ) (n : Nat),
      st.data = A ++ List.replicate n none ++ B →
      st.wts = Aw ++ List.replicate n 0 ++ Bw →
      A.length = st.result_h → Aw.length = st.result_h →
      st.next_r_pos + 1 = st.result_h + n → l.length < n →
      (l.foldl (coercer_h_step g) st).data
        = (A ++ (l.filter fun i => !(g.marks_.getD i false)).map fun i => g.data_.getD i none)
          ++ List.replicate (n - l.length) none
          ++ (((l.filter fun i => g.marks_.getD i false).map
                fun i => g.data_.getD i none).reverse ++ B) ∧
      (l.foldl (coercer_h_step g) st).wts
        = (Aw ++ (l.filter fun i => !(g.marks_.getD i false)).map fun i => g.weights_.getD i 0)
          ++ List.replicate (n - l.length) 0
          ++ (List.replicate (l.filter fun i => g.marks_.getD i false).length (-1) ++ Bw) := by
  induction l with
  | nil =>
    intro st A B Aw Bw n hd hw _ _ _ _
    simp [hd, hw]
  | cons i l ih =>
    intro st A B Aw Bw n hd hw hA hAw hpos hlen
    simp only [List.length_cons] at hlen
    obtain ⟨m, rfl⟩ : ∃ m, n = m + 1 := ⟨n - 1, by omega⟩
    cases hm : g.marks_.getD i false
    · have hs : coercer_h_step g st i =
          { st with
            data := st.data.set st.result_h (g.data_.getD i none)
            wts := st.wts.set st.result_h (g.weights_.getD i 0)
            result_h := st.result_h + 1 } := by
        unfold coercer_h_step
        rw [hm]
        rfl
      have h := ih (coercer_h_step g st i) (A ++ [g.data_.getD i none]) B
        (Aw ++ [g.weights_.getD i 0]) Bw m
        (by rw [hs, hd, ← hA]; exact set_first_free A B m none _)
        (by rw [hs, hw, ← hAw]; exact set_first_free Aw Bw m 0 _)
        (by rw [hs]; simp [hA]) (by rw [hs]; simp [hAw])
        (by rw [hs]; simp only; omega) (by omega)
      simp only [List.foldl_cons, List.filter_cons, hm, Bool.not_false, if_true,
        Bool.false_eq_true, if_false, List.map_cons, List.length_cons]
      rw [h.1, h.2]
      simp only [List.append_assoc, List.singleton_append, Nat.add_sub_add_right]
      exact ⟨trivial, trivial⟩
    · have hs : coercer_h_step g st i =
          { st with
            data := st.data.set st.next_r_pos (g.data_.getD i none)
            wts := st.wts.set st.next_r_pos (-1)
            transferred_weight := st.transferred_weight + g.weights_.getD i 0
            result_r := st.result_r + 1
            next_r_pos := st.next_r_pos - 1 } := by
        unfold coercer_h_step
        rw [hm]
        rfl
      have hnext : st.next_r_pos = A.length + m := by omega
      have hnextw : st.next_r_pos = Aw.length + m := by omega
      have h := ih (coercer_h_step g st i) A (g.data_.getD i none :: B) Aw (-1 :: Bw) m
        (by rw [hs, hd]; simp only; rw [hnext]; exact set_last_free A B m none _)
        (by rw [hs, hw]; simp only; rw [hnextw]; exact set_last_free Aw Bw m 0 _)
        (by rw [hs]; exact hA) (by rw [hs]; exact hAw)
        (by rw [hs]; simp only; omega) (by omega)
      simp only [List.foldl_cons, List.filter_cons, hm, Bool.not_true, if_true,
        Bool.false_eq_true, if_false, List.map_cons, List.length_cons, List.reverse_cons]
      rw [h.1, h.2]
      simp only [List.append_assoc, List.singleton_append, Nat.add_sub_add_right,
        List.replicate_succ', List.append_assoc]
      exact ⟨trivial, trivial⟩

theorem coercer_loops_layout (g : var_opt_sketch T) (hr : g.r_ = 0) :
    (coercer_loops g).data
      = (unmarked_h_slots g).map (fun i => g.data_.getD i none) ++ [none]
        ++ ((marked_h_slots g).map fun i => g.data_.getD i none).reverse ∧
    (coercer_loops g).wts.set (coercer_loops g).result_h (-1)
      = (unmarked_h_slots g).map (fun i => g.weights_.getD i 0) ++ [-1]
        ++ List.replicate (marked_h_slots g).length (-1) ∧
    (coercer_loops g).result_h = (unmarked_h_slots g).length ∧
    (coercer_loops g).result_r = (marked_h_slots g).length ∧
    (unmarked_h_slots g).length + (marked_h_slots g).length = g.h_ := by
  have hsum := filter_marked_add_unmarked g (List.range g.h_)
  rw [List.length_range] at hsum
  have hcount := coercer_h_loop_counts g (List.range g.h_)
    { data := List.replicate (g.h_ + 0 + 1) none, wts := List.replicate (g.h_ + 0 + 1) 0,
      result_h := 0, result_r := 0, next_r_pos := g.h_ + 0, transferred_weight := 0 }
  have hlay := coercer_h_loop_layout g (List.range g.h_)
    { data := List.replicate (g.h_ + 0 + 1) none, wts := List.replicate (g.h_ + 0 + 1) 0,
      result_h := 0, result_r := 0, next_r_pos := g.h_ + 0, transferred_weight := 0 }
    [] [] [] [] (g.h_ + 0 + 1) (by simp) (by simp) rfl rfl (by simp) (by simp)
  simp only [List.length_range, List.nil_append, List.append_nil, Nat.add_zero,
    Nat.add_sub_cancel_left, zero_add] at hlay hcount
  have hloops : coercer_loops g = (List.range g.h_).foldl (coercer_h_step g)
      { data := List.replicate (g.h_ + 1) none, wts := List.replicate (g.h_ + 1) 0,
        result_h := 0, result_r := 0, next_r_pos := g.h_, transferred_weight := 0 } := by
    simp only [coercer_loops, var_opt_sketch.get_num_samples, hr, Nat.add_zero,
      Nat.sub_self, List.range'_zero, List.foldl_nil]
  rw [hloops]
  unfold unmarked_h_slots marked_h_slots
  refine ⟨hlay.1, ?_, hcount.1, hcount.2.1, by omega⟩
  rw [hlay.2, hcount.1]
  have := set_first_free
    ((List.filter (fun i => !(g.marks_.getD i false)) (List.range g.h_)).map
      fun i => g.weights_.getD i 0)
    (List.replicate (List.filter (fun i => g.marks_.getD i false) (List.range g.h_)).length
      (-1 : ℚ)) 0 0 (-1)
  simp only [List.length_map, zero_add, List.replicate_zero, List.append_nil] at this
  exact this

theorem getD_of_layout {α : Type} (U M : List α) (d e : α) (h : Nat)
    (hh : U.length + M.length = h) :
    (∀ j x, U[j]? = some x → (U ++ [e] ++ M.reverse).getD j d = x) ∧
    (U ++ [e] ++ M.reverse).getD U.length d = e ∧
    (∀ j x, M[j]? = some x → (U ++ [e] ++ M.reverse).getD (h - j) d = x) := by
  refine ⟨?_, ?_, ?_⟩
  · intro j x hj
    have hlt : j < U.length := by
      by_contra hge
      rw [List.getElem?_eq_none (by omega)] at hj
      cases hj
    rw [List.getD_eq_getElem?_getD, List.append_assoc, List.getElem?_append_left hlt, hj]
    rfl
  · rw [List.getD_eq_getElem?_getD, List.append_assoc,
      List.getElem?_append_right (le_refl _)]
    simp
  · intro j x hj
    have hlt : j < M.length := by
      by_contra hge
      rw [List.getElem?_eq_none (by omega)] at hj
      cases hj
    have hidx : h - j - (U ++ [e]).length + j + 1 = M.length := by
      simp only [List.length_append, List.length_singleton]
      omega
    rw [List.getD_eq_getElem?_getD,
      List.getElem?_append_right (by simp only [List.length_append, List.length_singleton]; omega),
      List.getElem?_reverse' _ j hidx, hj]
    rfl

/-- C16. Coercion layout: on a gadget with `r == 0` and `h_old` H items the
loops of `mark_moving_gadget_coercer` fill buffers of `h_old + 1` slots:
slots `[0, h_new)` hold the unmarked H items in their original order with
their weights, slot `h_new` is the gap (no item, weight -1), and the slots
after it hold the marked H items with weight -1, filled from the back, the
marked item number `j` of the scan (counted from 0) at index `h_old - j`.
Hence `h_new + r_new == h_old` - the assertion of line 299 holds - and the
items of the result are a permutation of the H items of the gadget. Every
sketch the coercer returns carries these buffers, and with assertions compiled
out it returns one. -/
theorem C16_coercion_layout (u : var_opt_union T) (sk : var_opt_sketch T)
    (hr : u.gadget_.r_ = 0) :
    (coercer_loops u.gadget_).data
      = (unmarked_h_slots u.gadget_).map (fun i => u.gadget_.data_.getD i none) ++ [none]
        ++ ((marked_h_slots u.gadget_).map fun i => u.gadget_.data_.getD i none).reverse ∧
    (coercer_loops u.gadget_).wts.set (coercer_loops u.gadget_).result_h (-1)
      = (unmarked_h_slots u.gadget_).map (fun i => u.gadget_.weights_.getD i 0) ++ [-1]
        ++ List.replicate (marked_h_slots u.gadget_).length (-1) ∧
    (coercer_loops u.gadget_).result_h + (coercer_loops u.gadget_).result_r
      = u.gadget_.h_ + u.gadget_.r_ ∧
    (∃ sk1, mark_moving_gadget_coercer false u sk = .ok sk1) ∧
    ∀ (checked : Bool) (sk1 : var_opt_sketch T),
      mark_moving_gadget_coercer checked u sk = .ok sk1 →
      sk1.data_.length = u.gadget_.h_ + 1 ∧ sk1.weights_.length = u.gadget_.h_ + 1 ∧
      sk1.h_ = (unmarked_h_slots u.gadget_).length ∧
      sk1.r_ = (marked_h_slots u.gadget_).length ∧
      sk1.h_ + sk1.r_ = u.gadget_.h_ ∧
      (∀ j i, (unmarked_h_slots u.gadget_)[j]? = some i →
        sk1.data_.getD j none = u.gadget_.data_.getD i none ∧
        sk1.weights_.getD j 0 = u.gadget_.weights_.getD i 0) ∧
      (sk1.data_.getD sk1.h_ none = none ∧ sk1.weights_.getD sk1.h_ 0 = -1) ∧
      (∀ j i, (marked_h_slots u.gadget_)[j]? = some i →
        sk1.data_.getD (u.gadget_.h_ - j) none = u.gadget_.data_.getD i none ∧
        sk1.weights_.getD (u.gadget_.h_ - j) 0 = -1) ∧
      (((List.range sk1.h_).map fun j => sk1.data_.getD j none) ++
        ((List.range sk1.r_).map fun j => sk1.data_.getD (sk1.h_ + 1 + j) none)).Perm
        ((List.range u.gadget_.h_).map fun i => u.gadget_.data_.getD i none) := by
  obtain ⟨hdata, hwts, hh, hrr, hsum⟩ := coercer_loops_layout u.gadget_ hr
  refine ⟨hdata, hwts, by rw [hh, hrr, hr]; omega, coercer_unchecked_returns u sk, ?_⟩
  intro checked sk1 hok
  have hsk := coercer_result checked u sk sk1 hok
  have e1 : sk1.data_ = (coercer_loops u.gadget_).data := by rw [hsk]
  have e2 : sk1.weights_
      = (coercer_loops u.gadget_).wts.set (coercer_loops u.gadget_).result_h (-1) := by rw [hsk]
  have e3 : sk1.h_ = (coercer_loops u.gadget_).result_h := by rw [hsk]
  have e4 : sk1.r_ = (coercer_loops u.gadget_).result_r := by rw [hsk]
  rw [hdata] at e1
  rw [hwts] at e2
  rw [hh] at e3
  rw [hrr] at e4
  have hrep : List.replicate (marked_h_slots u.gadget_).length (-1 : ℚ)
      = (List.replicate (marked_h_slots u.gadget_).length (-1 : ℚ)).reverse := by simp
  have gd := getD_of_layout ((unmarked_h_slots u.gadget_).map fun i => u.gadget_.data_.getD i none)
    ((marked_h_slots u.gadget_).map fun i => u.gadget_.data_.getD i none) none none
    u.gadget_.h_ (by simpa using hsum)
  have gw := getD_of_layout
    ((unmarked_h_slots u.gadget_).map fun i => u.gadget_.weights_.getD i 0)
    (List.replicate (marked_h_slots u.gadget_).length (-1 : ℚ)) 0 (-1)
    u.gadget_.h_ (by simpa using hsum)
  rw [← hrep] at gw
  rw [← e1] at gd
  rw [← e2] at gw
  simp only [List.length_map] at gd gw
  refine ⟨by rw [e1]; simp; omega, by rw [e2]; simp; omega, e3, e4, by rw [e3, e4]; exact hsum,
    ?_, ?_, ?_, ?_⟩
  · intro j i hj
    exact ⟨gd.1 j _ (by rw [List.getElem?_map, hj]; rfl),
      gw.1 j _ (by rw [List.getElem?_map, hj]; rfl)⟩
  · rw [e3]
    exact ⟨gd.2.1, gw.2.1⟩
  · intro j i hj
    have hlt : j < (marked_h_slots u.gadget_).length := by
      by_contra hge
      rw [List.getElem?_eq_none (by omega)] at hj
      cases hj
    exact ⟨gd.2.2 j _ (by rw [List.getElem?_map, hj]; rfl),
      gw.2.2 j _ (by rw [List.getElem?_replicate_of_lt hlt])⟩
  · have hfront : ((List.range sk1.h_).map fun j => sk1.data_.getD j none)
        = (unmarked_h_slots u.gadget_).map fun i => u.gadget_.data_.getD i none := by
      apply List.ext_getElem?
      intro j
      by_cases hj : j < (unmarked_h_slots u.gadget_).length
      · have hget : (unmarked_h_slots u.gadget_)[j]? = some (unmarked_h_slots u.gadget_)[j] :=
          List.getElem?_eq_getElem hj
        rw [List.getElem?_map, List.getElem?_map, List.getElem?_range (by rw [e3]; exact hj), hget]
        simp only [Option.map_some']
        rw [gd.1 j _ (by rw [List.getElem?_map, hget]; rfl)]
      · rw [List.getElem?_eq_none (by simp [e3]; omega),
          List.getElem?_eq_none (by simp; omega)]
    have hback : ((List.range sk1.r_).map fun j => sk1.data_.getD (sk1.h_ + 1 + j) none)
        = ((marked_h_slots u.gadget_).map fun i => u.gadget_.data_.getD i none).reverse := by
      apply List.ext_getElem?
      intro j
      by_cases hj : j < (marked_h_slots u.gadget_).length
      · have hj2 : (marked_h_slots u.gadget_).length - 1 - j
            < (marked_h_slots u.gadget_).length := by omega
        have hget : (marked_h_slots u.gadget_)[(marked_h_slots u.gadget_).length - 1 - j]?
            = some (marked_h_slots u.gadget_)[(marked_h_slots u.gadget_).length - 1 - j] :=
          List.getElem?_eq_getElem hj2
        rw [List.getElem?_map, List.getElem?_range (by rw [e4]; exact hj),
          List.getElem?_reverse (by simpa using hj), List.getElem?_map, List.length_map, hget]
        simp only [Option.map_some']
        have := gd.2.2 ((marked_h_slots u.gadget_).length - 1 - j) _
          (by rw [List.getElem?_map, hget]; rfl)
        have hidx : sk1.h_ + 1 + j
            = u.gadget_.h_ - ((marked_h_slots u.gadget_).length - 1 - j) := by
          rw [e3]
          omega
        rw [hidx]
        exact congrArg some this
      · rw [List.getElem?_eq_none (by simp [e4]; omega),
          List.getElem?_eq_none (by simp; omega)]
    rw [hfront, hback]
    have hperm := List.filter_append_perm (fun i => !(u.gadget_.marks_.getD i false))
      (List.range u.gadget_.h_)
    have hm : (List.filter (fun x => !(!(u.gadget_.marks_.getD x false)))
        (List.range u.gadget_.h_)) = marked_h_slots u.gadget_ := by
      unfold marked_h_slots
      apply List.filter_congr
      intro x _
      simp
    rw [hm] at hperm
    have hmap := hperm.map fun i => u.gadget_.data_.getD i none
    rw [List.map_append] at hmap
    exact ((List.Perm.append_left _ (List.reverse_perm _)).trans hmap)

/-- Witness of C16 on the union that merged `exact_ab` and `est_p`: the
unmarked `a`, `b` stay in front, the gap follows, the marked `p` is last. -/
theorem C16_coercion_layout_witness :
    union_abp.gadget_.r_ = 0 ∧
    (coercer_loops union_abp.gadget_).data = [some "a", some "b", none, some "p"] ∧
    (coercer_loops union_abp.gadget_).wts.set (coercer_loops union_abp.gadget_).result_h (-1)
      = [10, 1, -1, -1] := by
  have hu : unmarked_h_slots union_abp.gadget_ = [0, 1] := by
    simp [unmarked_h_slots, union_abp, range_three, List.filter_cons]
  have hm : marked_h_slots union_abp.gadget_ = [2] := by
    simp [marked_h_slots, union_abp, range_three, List.filter_cons]
  have h := C16_coercion_layout union_abp (union_abp.gadget_.copy false 5) rfl
  rw [hu, hm] at h
  refine ⟨rfl, ?_, ?_⟩
  · rw [h.1]
    simp [union_abp]
  · rw [h.2.1]
    simp [union_abp]

/-! ## Materialization under two draws -/

theorem marked_of_stored_slot (g g1 : var_opt_sketch T) (w : ℚ) (mark : Bool)
    (hh : g1.h_ = g.h_ + 1)
    (hkeep : ∀ i, i < g.h_ →
      g1.weights_.getD i 0 = g.weights_.getD i 0 ∧
      g1.marks_.getD i false = g.marks_.getD i false)
    (hw : g1.weights_.getD g.h_ 0 = w) (hm : g1.marks_.getD g.h_ false = mark) :
    marked_h_count g1 = marked_h_count g + (if mark then 1 else 0) ∧
    marked_h_weight g1 = marked_h_weight g + (if mark then w else 0) := by
  have hfilter : (List.range g.h_).filter (fun i => g1.marks_.getD i false)
      = (List.range g.h_).filter (fun i => g.marks_.getD i false) := by
    apply List.filter_congr
    intro i hi
    exact (hkeep i (List.mem_range.1 hi)).2
  have hmap : ((List.range g.h_).filter (fun i => g.marks_.getD i false)).map
        (fun i => g1.weights_.getD i 0)
      = ((List.range g.h_).filter (fun i => g.marks_.getD i false)).map
        (fun i => g.weights_.getD i 0) := by
    apply List.map_congr_left
    intro i hi
    exact (hkeep i (List.mem_range.1 (List.mem_filter.1 hi).1)).1
  unfold marked_h_count marked_h_weight
  rw [hh, List.range_succ, List.filter_append, hfilter, List.map_append, hmap]
  cases mark
  · simp only [List.filter_cons, hm, Bool.false_eq_true, if_false, List.filter_nil,
      List.append_nil, List.map_nil, add_zero, and_self]
  · simp only [List.filter_cons, hm, if_true, List.filter_nil, List.length_append,
      List.length_singleton, List.map_cons, List.map_nil, List.sum_append, List.sum_cons,
      List.sum_nil, add_zero, hw, and_self]

theorem feed_stays_in_estimation (ops : gadget_ops T) (hest : leaves_warmup_for_good ops)
    (mark : Bool) (l : List (T × ℚ)) :
    ∀ g : var_opt_sketch T, 0 < g.r_ →
      0 < (l.foldl (fun g p => ops.update g p.1 p.2 mark) g).r_ := by
  induction l with
  | nil => intro g h; exact h
  | cons p l ih =>
    intro g h
    exact ih _ (hest g p.1 p.2 mark (Or.inl h))

theorem feed_during_warmup (ops : gadget_ops T) (hup : stores_below_capacity ops)
    (hest : leaves_warmup_for_good ops) (max_k : Nat) (hk : 0 < max_k) (mark : Bool)
    (l : List (T × ℚ)) :
    ∀ g : var_opt_sketch T, g.r_ = 0 → g.k_ = max_k →
      g.num_marks_in_h_ = marked_h_count g →
      0 < (l.foldl (fun g p => ops.update g p.1 p.2 mark) g).r_ ∨
      ((l.foldl (fun g p => ops.update g p.1 p.2 mark) g).r_ = 0 ∧
        (l.foldl (fun g p => ops.update g p.1 p.2 mark) g).k_ = max_k ∧
        (l.foldl (fun g p => ops.update g p.1 p.2 mark) g).num_marks_in_h_
          = marked_h_count (l.foldl (fun g p => ops.update g p.1 p.2 mark) g) ∧
        marked_h_count (l.foldl (fun g p => ops.update g p.1 p.2 mark) g)
          = marked_h_count g + (if mark then l.length else 0) ∧
        marked_h_weight (l.foldl (fun g p => ops.update g p.1 p.2 mark) g)
          = marked_h_weight g + (if mark then (l.map fun p => p.2).sum else 0)) := by
  induction l with
  | nil =>
    intro g hr hgk hc
    right
    refine ⟨hr, hgk, hc, ?_, ?_⟩ <;> cases mark <;> simp
  | cons p l ih =>
    intro g hr hgk hc
    simp only [List.foldl_cons]
    by_cases hcap : g.h_ < g.k_
    · obtain ⟨u1, u2, u3, u4, u5, u6, u7⟩ := hup g p.1 p.2 mark hr hcap
      obtain ⟨c1, c2⟩ := marked_of_stored_slot g (ops.update g p.1 p.2 mark) p.2 mark
        u3 u5 u6 u7
      rcases ih (ops.update g p.1 p.2 mark) u1 (by rw [u2, hgk])
          (by rw [u4, c1, hc]) with h | ⟨i1, i2, i3, i4, i5⟩
      · exact Or.inl h
      · right
        refine ⟨i1, i2, i3, ?_, ?_⟩
        · rw [i4, c1]
          cases mark <;> simp
          omega
        · rw [i5, c2]
          cases mark <;> simp
          ring
    · left
      exact feed_stays_in_estimation ops hest mark l _
        (hest g p.1 p.2 mark (Or.inr ⟨by omega, by omega⟩))

theorem r_samples_weight_sum (s : var_opt_sketch T) (hlen : s.r_samples.length = s.r_)
    (hw : s.r_ = 0 → s.total_wt_r_ = 0) :
    (s.r_samples.map fun p => p.2).sum = s.total_wt_r_ := by
  have hconst : s.r_samples.map (fun p => p.2)
      = List.replicate s.r_ (s.total_wt_r_ / (s.r_ : ℚ)) := by
    rw [← hlen]
    apply List.eq_replicate_iff.2
    refine ⟨by simp, ?_⟩
    intro b hb
    obtain ⟨p, hp, rfl⟩ := List.mem_map.1 hb
    unfold var_opt_sketch.r_samples at hp
    obtain ⟨j, _, hj⟩ := List.mem_filterMap.1 hp
    cases hd : s.data_.getD (s.h_ + 1 + j) none with
    | none => rw [hd] at hj; cases hj
    | some x =>
      rw [hd] at hj
      simp only [Option.map_some', Option.some.injEq] at hj
      rw [← hj, hlen]
  rw [hconst, List.sum_replicate, nsmul_eq_mul]
  by_cases h0 : s.r_ = 0
  · rw [h0, hw h0]; simp
  · have : (s.r_ : ℚ) ≠ 0 := by exact_mod_cast h0
    field_simp

theorem est_inputs_append (seen : List (var_opt_sketch T)) (s : var_opt_sketch T) :
    est_inputs (seen ++ [s]) = est_inputs seen ++ (if 0 < s.r_ then [s] else []) := by
  unfold est_inputs
  rw [List.filter_append]
  congr 1
  by_cases h : 0 < s.r_
  · simp [List.filter_cons, h]
  · simp [List.filter_cons, h]

theorem gadget_warm_step (ops : gadget_ops T) (hup : stores_below_capacity ops)
    (hest : leaves_warmup_for_good ops) (max_k : Nat) (hk : 0 < max_k)
    (u : var_opt_union T) (seen : List (var_opt_sketch T)) (s : var_opt_sketch T)
    (hwf : s.h_ + s.r_ ≤ s.n_) (hlen : s.r_samples.length = s.r_)
    (hinv : gadget_warm u max_k seen) :
    gadget_warm (merge_into ops u s) max_k (seen ++ [s]) := by
  by_cases h0 : s.n_ = 0
  · have hr : ¬ 0 < s.r_ := by omega
    rw [merge_into_of_n_zero ops u s h0]
    unfold gadget_warm
    rw [est_inputs_append, if_neg hr, List.append_nil]
    exact hinv
  · unfold gadget_warm
    rw [merge_into_gadget ops u s (by omega)]
    unfold feed_gadget
    simp only
    rcases hinv with hpos | ⟨g1, g2, g3, g4, g5⟩
    · left
      exact feed_stays_in_estimation ops hest true _ _
        (feed_stays_in_estimation ops hest false _ _ hpos)
    · rcases feed_during_warmup ops hup hest max_k hk false s.h_samples u.gadget_ g1 g2 g3
        with hpos | ⟨a1, a2, a3, a4, a5⟩
      · left
        exact feed_stays_in_estimation ops hest true _ _ hpos
      · rcases feed_during_warmup ops hup hest max_k hk true s.r_samples _ a1 a2 a3
          with hpos | ⟨b1, b2, b3, b4, b5⟩
        · exact Or.inl hpos
        · right
          simp only [Bool.false_eq_true, if_false, add_zero] at a4 a5
          simp only [if_true] at b4 b5
          refine ⟨b1, b2, b3, ?_, ?_⟩
          · rw [b4, a4, g4, hlen, est_inputs_append]
            by_cases hr : 0 < s.r_
            · rw [if_pos hr]; simp
            · rw [if_neg hr]
              have : s.r_ = 0 := by omega
              simp [this]
          · rw [b5, a5, g5, est_inputs_append]
            by_cases hr : 0 < s.r_
            · rw [if_pos hr, r_samples_weight_sum s hlen (fun h => absurd h (by omega))]
              simp
            · rw [if_neg hr]
              have hr0 : s.r_ = 0 := by omega
              have hnil : s.r_samples = [] := by
                apply List.eq_nil_of_length_eq_zero
                rw [hlen, hr0]
              simp [hnil]

theorem gadget_warm_merge_all (ops : gadget_ops T) (hup : stores_below_capacity ops)
    (hest : leaves_warmup_for_good ops) (max_k : Nat) (hk : 0 < max_k)
    (rest : List (var_opt_sketch T)) :
    ∀ (u : var_opt_union T) (seen : List (var_opt_sketch T)),
      (∀ s ∈ rest, s.h_ + s.r_ ≤ s.n_ ∧ s.r_samples.length = s.r_) →
      gadget_warm u max_k seen → gadget_warm (merge_all ops u rest) max_k (seen ++ rest) := by
  induction rest with
  | nil => intro u seen _ h; simpa [merge_all] using h
  | cons s rest ih =>
    intro u seen hwf h
    obtain ⟨h1, h2⟩ := hwf s (by simp)
    have := ih (merge_into ops u s) (seen ++ [s]) (fun x hx => hwf x (by simp [hx]))
      (gadget_warm_step ops hup hest max_k hk u seen s h1 h2 h)
    simpa [merge_all] using this

theorem filter_eq_of_sum_eq {α : Type} (f : α → Nat) (p q : α → Bool)
    (hpq : ∀ x, p x = true → q x = true) (hpos : ∀ x, q x = true → 0 < f x) (l : List α) :
    ((l.filter p).map f).sum ≤ ((l.filter q).map f).sum ∧
    (((l.filter p).map f).sum = ((l.filter q).map f).sum → l.filter p = l.filter q) := by
  induction l with
  | nil => simp
  | cons x l ih =>
    obtain ⟨hle, heq⟩ := ih
    cases hp : p x
    · cases hq : q x
      · simp only [List.filter_cons, hp, hq, Bool.false_eq_true, if_false]
        exact ⟨hle, heq⟩
      · have hfx := hpos x hq
        simp only [List.filter_cons, hp, hq, Bool.false_eq_true, if_false, if_true,
          List.map_cons, List.sum_cons]
        refine ⟨by omega, ?_⟩
        intro h
        omega
    · have hq := hpq x hp
      simp only [List.filter_cons, hp, hq, if_true, List.map_cons, List.sum_cons]
      refine ⟨by omega, ?_⟩
      intro h
      rw [heq (by omega)]

theorem coercer_exact_returns (checked : Bool) (u : var_opt_union T) (sk : var_opt_sketch T)
    (hr : u.gadget_.r_ = 0)
    (hs : marked_h_weight u.gadget_ = u.outer_tau_numer_) :
    ∃ sk1, mark_moving_gadget_coercer checked u sk = .ok sk1 := by
  obtain ⟨h1, h2, h3, h4⟩ := coercer_loops_exact u.gadget_ hr
  unfold mark_moving_gadget_coercer
  simp only [h1, h2, h3, hr, hs]
  have hk : u.gadget_.h_ - marked_h_count u.gadget_ + marked_h_count u.gadget_
      = u.gadget_.h_ + 0 := by omega
  have hz : |u.outer_tau_numer_ - u.outer_tau_numer_| < 1 / 10000000000 := by
    rw [sub_self, abs_zero]
    norm_num
  simp only [hk, hz, decide_True, assert_then_true]
  exact ⟨_, rfl⟩

theorem transferred_weight_is_numer (ops : gadget_ops T) (hup : stores_below_capacity ops)
    (hest : leaves_warmup_for_good ops) (max_k : Nat) (hk : 0 < max_k)
    (sketches : List (var_opt_sketch T))
    (hwf : ∀ s ∈ sketches, s.h_ + s.r_ ≤ s.n_ ∧ s.r_samples.length = s.r_)
    (hr : (merge_all ops (var_opt_union.new max_k) sketches).gadget_.r_ = 0)
    (h3 : (merge_all ops (var_opt_union.new max_k) sketches).gadget_.num_marks_in_h_
      = (merge_all ops (var_opt_union.new max_k) sketches).outer_tau_denom_) :
    (merge_all ops (var_opt_union.new max_k) sketches).gadget_.num_marks_in_h_
      = marked_h_count (merge_all ops (var_opt_union.new max_k) sketches).gadget_ ∧
    marked_h_weight (merge_all ops (var_opt_union.new max_k) sketches).gadget_
      = (merge_all ops (var_opt_union.new max_k) sketches).outer_tau_numer_ := by
  have hw0 : gadget_warm (var_opt_union.new max_k : var_opt_union T) max_k [] := by
    right
    simp [var_opt_union.new, var_opt_sketch.empty, marked_h_count, marked_h_weight, est_inputs]
  have hwarm := gadget_warm_merge_all ops hup hest max_k hk sketches _ [] hwf hw0
  rw [List.nil_append] at hwarm
  have h0 : tau_pair_tracks (var_opt_union.new max_k : var_opt_union T) [] :=
    Or.inl ⟨rfl, by simp⟩
  have h1 : pair_sums_tier (var_opt_union.new max_k : var_opt_union T) [] := by
    simp [pair_sums_tier, tau_tier, var_opt_union.new]
  obtain ⟨_, hden, hnum⟩ := pair_sums_tier_merge_all ops sketches _ []
    (fun s hs => (hwf s hs).1) h0 h1
  rw [List.nil_append] at hden hnum
  rcases hwarm with hpos | ⟨_, _, g3, g4, g5⟩
  · omega
  · refine ⟨g3, ?_⟩
    have hfilter := filter_eq_of_sum_eq (fun s : var_opt_sketch T => s.r_)
      (fun s => decide (0 < s.r_ ∧ input_tau s
        = (merge_all ops (var_opt_union.new max_k) sketches).outer_tau_numer_
          / ((merge_all ops (var_opt_union.new max_k) sketches).outer_tau_denom_ : ℚ)))
      (fun s => decide (0 < s.r_))
      (by intro x hx; simp only [decide_eq_true_eq] at hx ⊢; exact hx.1)
      (by intro x hx; simpa using hx) sketches
    have htier : tau_tier sketches
        ((merge_all ops (var_opt_union.new max_k) sketches).outer_tau_numer_
          / ((merge_all ops (var_opt_union.new max_k) sketches).outer_tau_denom_ : ℚ))
        = est_inputs sketches := by
      apply hfilter.2
      show ((tau_tier sketches _).map fun s => s.r_).sum
        = ((est_inputs sketches).map fun s => s.r_).sum
      rw [← hden, ← g4, ← g3, h3]
    rw [g5, ← htier]
    exact hnum.symm

/-- C20. The coerced result carries the outer tau: let a fresh union of
capacity `max_k > 0` merge any sequence of sketches (each with `h + r ≤ n` and
`r` reservoir items), the gadget's `update` storing items in H below capacity
and staying in estimation mode once it is full. If afterwards the four
conditions of the pseudo-exact test hold, the gadget having
`total_weight_r == 0`, then `get_result()` returns a sketch whose `tau`,
`total_weight_r / r`, is the union's `get_outer_tau()`, with
`r == outer_tau_denom` and `total_weight_r` the transferred weight, which is
exactly `outer_tau_numer`. -/
theorem C20_coerced_result_carries_outer_tau (ops : gadget_ops T)
    (hup : stores_below_capacity ops) (hest : leaves_warmup_for_good ops)
    (checked : Bool) (max_k fuel : Nat) (hk : 0 < max_k)
    (sketches : List (var_opt_sketch T))
    (hwf : ∀ s ∈ sketches, s.h_ + s.r_ ≤ s.n_ ∧ s.r_samples.length = s.r_)
    (hfour : four_conditions (merge_all ops (var_opt_union.new max_k) sketches))
    (hw0 : (merge_all ops (var_opt_union.new max_k) sketches).gadget_.total_wt_r_ = 0) :
    ∃ sk, get_result ops checked fuel (merge_all ops (var_opt_union.new max_k) sketches)
        = .ok sk ∧
      sk.get_tau = some (merge_all ops (var_opt_union.new max_k) sketches).get_outer_tau ∧
      sk.r_ = (merge_all ops (var_opt_union.new max_k) sketches).outer_tau_denom_ ∧
      sk.total_wt_r_
        = marked_h_weight (merge_all ops (var_opt_union.new max_k) sketches).gadget_ ∧
      marked_h_weight (merge_all ops (var_opt_union.new max_k) sketches).gadget_
        = (merge_all ops (var_opt_union.new max_k) sketches).outer_tau_numer_ := by
  obtain ⟨c1, c2, c3, c4⟩ := hfour
  obtain ⟨hcons, hnumer⟩ := transferred_weight_is_numer ops hup hest max_k hk sketches hwf c1 c3
  generalize merge_all ops (var_opt_union.new max_k) sketches = u at *
  have hfour : four_conditions u := ⟨c1, c2, c3, c4⟩
  obtain ⟨sk1, hok⟩ := coercer_exact_returns checked u (u.gadget_.copy false u.n_) c1 hnumer
  obtain ⟨l1, l2, l3, _⟩ := coercer_loops_exact u.gadget_ c1
  have hsk := coercer_result checked u _ sk1 hok
  have er : sk1.r_ = u.outer_tau_denom_ := by
    rw [hsk]
    simp only
    rw [l2, ← hcons, c3]
  have ew : sk1.total_wt_r_ = marked_h_weight u.gadget_ := by
    rw [hsk]
    simp only
    rw [l3, hw0, zero_add]
  have hd : ¬ u.outer_tau_denom_ = 0 := by omega
  refine ⟨sk1, ?_, ?_, er, ew, hnumer⟩
  · have hm : ¬ u.gadget_.num_marks_in_h_ = 0 := by omega
    unfold get_result
    rw [if_neg hm]
    simp only [detect_of_four_conditions checked u _ hfour, hok, Bool.not_true,
      Bool.false_eq_true, if_false]
  · unfold var_opt_sketch.get_tau var_opt_union.get_outer_tau
    rw [er, ew, hnumer, if_neg hd, if_neg hd]

theorem overflowing_ops_stores_below_capacity :
    stores_below_capacity (overflowing_ops : gadget_ops T) := by
  intro g x w mark hr hk
  have hcond : ¬ (g.r_ = 0 ∧ ¬ g.h_ < g.k_) := fun h => h.2 hk
  have e : (overflowing_ops : gadget_ops T).update g x w mark =
      { g with
        data_ := write_slot g.data_ g.h_ none (some x)
        weights_ := write_slot g.weights_ g.h_ 0 w
        marks_ := write_slot g.marks_ g.h_ false mark
        curr_items_alloc_ := max g.curr_items_alloc_ (g.h_ + 1)
        h_ := g.h_ + 1
        n_ := g.n_ + 1
        num_marks_in_h_ := g.num_marks_in_h_ + (if mark then 1 else 0) } := by
    show overflowing_update g x w mark = _
    unfold overflowing_update
    rw [if_neg hcond]
    unfold warmup_update
    rw [if_pos ⟨hr, hk⟩]
  rw [e]
  refine ⟨hr, rfl, rfl, rfl, ?_, ?_, ?_⟩
  · intro i hi
    exact ⟨getD_write_slot_ne _ _ _ _ _ (by omega), getD_write_slot_ne _ _ _ _ _ (by omega)⟩
  · rw [getD_write_slot, if_pos rfl]
  · rw [getD_write_slot, if_pos rfl]

theorem overflowing_ops_leaves_warmup_for_good :
    leaves_warmup_for_good (overflowing_ops : gadget_ops T) := by
  intro g x w mark h
  show 0 < (overflowing_update g x w mark).r_
  unfold overflowing_update
  by_cases hr : g.r_ = 0
  · have hfull : 0 < g.k_ ∧ g.k_ ≤ g.h_ := by
      rcases h with hpos | hfull
      · omega
      · exact hfull
    have hcond : g.r_ = 0 ∧ ¬ g.h_ < g.k_ := ⟨hr, by omega⟩
    have hh : 0 < g.h_ := by omega
    rw [if_pos hcond]
    unfold absorb_last_h
    rw [if_pos hh]
    show 0 < g.r_ + 1
    omega
  · have hcond : ¬ (g.r_ = 0 ∧ ¬ g.h_ < g.k_) := fun h => hr h.1
    have hw : ¬ (g.r_ = 0 ∧ g.h_ < g.k_) := fun h => hr h.1
    rw [if_neg hcond]
    unfold warmup_update
    rw [if_neg hw]
    show 0 < g.r_
    omega

theorem merge_all_abp_overflowing :
    merge_all overflowing_ops (var_opt_union.new 10) [exact_ab, est_p] = union_abp := by
  simp [merge_all, merge_into, exact_ab, est_p, union_abp, var_opt_union.new,
    var_opt_sketch.empty, feed_gadget, var_opt_sketch.h_samples, var_opt_sketch.r_samples,
    overflowing_ops, overflowing_update, warmup_update, write_slot, range_one, range_two,
    var_opt_sketch.get_tau, var_opt_union.get_outer_tau, dbl_gt, dbl_eq]

theorem four_conditions_abp : four_conditions union_abp := by
  refine ⟨rfl, by decide, rfl, ?_⟩
  intro i _ _ t ht
  simp [union_abp, var_opt_sketch.get_tau] at ht

/-- Witness of C20: the union of capacity 10 that merged `exact_ab` and
`est_p` returns a sketch with `tau = 2`, the outer tau, and `r = 1`. -/
theorem C20_coerced_result_carries_outer_tau_witness :
    stores_below_capacity (overflowing_ops : gadget_ops String) ∧
    leaves_warmup_for_good (overflowing_ops : gadget_ops String) ∧
    (∀ s ∈ [exact_ab, est_p], s.h_ + s.r_ ≤ s.n_ ∧ s.r_samples.length = s.r_) ∧
    four_conditions (merge_all overflowing_ops (var_opt_union.new 10) [exact_ab, est_p]) ∧
    ∃ sk, get_result overflowing_ops true 0
        (merge_all overflowing_ops (var_opt_union.new 10) [exact_ab, est_p]) = .ok sk ∧
      sk.get_tau
        = some (merge_all overflowing_ops (var_opt_union.new 10)
            [exact_ab, est_p]).get_outer_tau ∧
      sk.r_ = 1 := by
  have hwf : ∀ s ∈ [exact_ab, est_p], s.h_ + s.r_ ≤ s.n_ ∧ s.r_samples.length = s.r_ := by
    simp [exact_ab, est_p, var_opt_sketch.r_samples, range_one]
  have hfour : four_conditions
      (merge_all overflowing_ops (var_opt_union.new 10) [exact_ab, est_p]) := by
    rw [merge_all_abp_overflowing]
    exact four_conditions_abp
  obtain ⟨sk, h1, h2, h3, _⟩ := C20_coerced_result_carries_outer_tau overflowing_ops
    overflowing_ops_stores_below_capacity overflowing_ops_leaves_warmup_for_good true 10 0
    (by decide) [exact_ab, est_p] hwf hfour (by rw [merge_all_abp_overflowing]; rfl)
  refine ⟨overflowing_ops_stores_below_capacity, overflowing_ops_leaves_warmup_for_good, hwf,
    hfour, sk, h1, h2, ?_⟩
  rw [h3, merge_all_abp_overflowing]
  rfl

end datasketches
